import Mathlib

/-!
# The Blosc filter for HDF5: `blosc_filter.c`

A shallow embedding of the two callbacks of `src/blosc_filter.c`:

* `blosc_filter`, the per-chunk transform (compress / decompress), and
* `blosc_set_local`, the per-dataset setup that fills slots 0-3 of `cd_values`.

The HDF5 library and the Blosc library are external to the repository.  Their
answers enter the embedding as parameters: a record `Blosc` of backend
functions, an allocator outcome for `malloc`, and a small model of the parts of
a dataset creation property list and of a datatype that the callbacks query.

Machine integers are naturals and integers with explicit reductions: `unsigned`
is 32 bits, `size_t` and `hsize_t` are 64 bits (LP64), `int` is 32 bits.

The `assert`s of `blosc_filter` are compiled in (`NDEBUG` is not defined): an
`assert` whose condition is false aborts the process.
-/

namespace BloscFilter

/-! ## Constants -/

/-- Filter revision number, `blosc_filter.h` line 13. -/
def FILTER_BLOSC_VERSION : Nat := 2

/-- Filter ID registered with the HDF Group, `blosc_filter.h` line 16. -/
def FILTER_BLOSC : Nat := 32001

/-- Modelled from the spec: `blosc.h` is not among the sources. The backend format
version written to slot 1; the value 2 is the one every test program prints in
its `h5ls` transcript, as in `Filter-0: blosc-32001 OPT (2, 2, 4, 40000)`. -/
def BLOSC_VERSION_FORMAT : Nat := 2

/-- Modelled from the spec: `blosc.h` is not among the sources. The widest element
size the backend shuffles, 255 (see the comment at `blosc_filter.c` line 132
and `test_compound.c`). -/
def BLOSC_MAX_TYPESIZE : Nat := 255

/-- Modelled from the spec: `blosc.h` is not among the sources. The reorder-mode
value that selects bit-shuffle; the modes are 0 (none), 1 (byte-shuffle) and
2 (bit-shuffle). -/
def BLOSC_BITSHUFFLE : Int := 2

/-- Direction flag of the HDF5 filter interface (`H5Zpublic.h`): set when the
filter is run in reverse, that is, when reading. -/
def H5Z_FLAG_REVERSE : Nat := 0x0100

/-! ## Machine integers -/

/-- Conversion of a value to `unsigned int` (32 bits). -/
def toUnsigned (v : Nat) : Nat := v % 2 ^ 32

/-- Conversion of an `unsigned` value to `int`, as in `clevel = cd_values[4]`. -/
def toInt (v : Nat) : Int :=
  if v % 2 ^ 32 < 2 ^ 31 then ((v % 2 ^ 32 : Nat) : Int)
  else ((v % 2 ^ 32 : Nat) : Int) - 2 ^ 32

/-! ## Memory -/

/-- One byte of a chunk buffer. -/
abbrev Byte := UInt8

/-- The live heap blocks: address and contents.  A pointer is the address of a
block, a natural number; `0` is `NULL`. -/
structure Heap where
  blocks : List (Nat × List Byte)
deriving DecidableEq, Repr

/-- Contents of the live block at `p`, if there is one. -/
def Heap.lookup (h : Heap) (p : Nat) : Option (List Byte) :=
  (h.blocks.find? (fun b => b.1 == p)).map (fun b => b.2)

/-- The C `free(p)`: the block at `p` is released; `free(NULL)` does nothing. -/
def Heap.free (h : Heap) (p : Nat) : Heap :=
  if p = 0 then h else ⟨h.blocks.filter (fun b => b.1 != p)⟩

/-- Replace the contents of the block at `p` (a write through a pointer). -/
def Heap.write (h : Heap) (p : Nat) (bytes : List Byte) : Heap :=
  ⟨h.blocks.map (fun b => if b.1 == p then (b.1, bytes) else b)⟩

/-- An address that is neither `NULL` nor the address of a live block. -/
def Heap.fresh (h : Heap) : Nat :=
  (h.blocks.map (fun b => b.1)).foldr max 0 + 1

/-- The initial contents of a block of `size` bytes handed out by `malloc`:
indeterminate, taken from `junk`. -/
def freshBlock (size : Nat) (junk : List Byte) : List Byte :=
  (junk ++ List.replicate size 0).take size

/-- The C `malloc(size)`: `NULL` with the heap unchanged when the allocation
fails (`ok = false`), else a fresh block of `size` indeterminate bytes. -/
def malloc (ok : Bool) (junk : List Byte) (h : Heap) (size : Nat) : Nat × Heap :=
  if ok then (h.fresh, ⟨(h.fresh, freshBlock size junk) :: h.blocks⟩) else (0, h)

/-! ## The backend and the host error stack -/

/-- The Blosc library as `blosc_filter` uses it.  Buffers passed by pointer are
passed by content; the source of a call is `const` and is left as it is; a
function that writes its destination returns the new content of the
destination. -/
structure Blosc where
  /-- The macro `BLOSC_VERSION_MAJOR` the filter is compiled against. -/
  VERSION_MAJOR : Nat
  /-- The macro `BLOSC_VERSION_MINOR` the filter is compiled against. -/
  VERSION_MINOR : Nat
  /-- The list of compressors built into the library. -/
  blosc_list_compressors : String
  /-- Map a compressor code to `(code, compname)`; `code = -1` when the library
  has no support for it. -/
  blosc_compcode_to_compname : Int → Int × String
  /-- Call `blosc_compress(clevel, doshuffle, typesize, nbytes, src, dest, destsize)`
  with the compressor `compname` selected: status and new content of `dest`. -/
  blosc_compress : (compname : String) → (clevel doshuffle : Int) →
    (typesize nbytes : Nat) → (src dest : List Byte) → (destsize : Nat) → Int × List Byte
  /-- Call `blosc_cbuffer_sizes(cbuffer, &nbytes, &cbytes, &blocksize)`. -/
  blosc_cbuffer_sizes : List Byte → Nat × Nat × Nat
  /-- Call `blosc_decompress(src, dest, destsize)`: status and new content of `dest`. -/
  blosc_decompress : (src dest : List Byte) → (destsize : Nat) → Int × List Byte

/-- The diagnostics `blosc_filter.c` pushes with `PUSH_ERR`, one constructor per
call site. -/
inductive Diag where
  /-- Line 57: "Can't register Blosc filter". -/
  | cant_register
  /-- Line 113: "Chunk rank exceeds limit". -/
  | chunk_rank_exceeds_limit
  /-- Line 194: "this Blosc library version is not supported.  Please update to >= 1.8". -/
  | version_not_supported
  /-- Line 206: no support for the compressor `compname`, but only for `complist`. -/
  | no_support_for_compressor (compname complist : String)
  /-- Line 233: "Can't allocate compression buffer". -/
  | cant_allocate_compression_buffer
  /-- Line 244: "Blosc compression error". -/
  | compression_error
  /-- Line 272: "Can't allocate decompression buffer". -/
  | cant_allocate_decompression_buffer
  /-- Line 278: "Blosc decompression error". -/
  | decompression_error
deriving DecidableEq, Repr

/-- Everything `blosc_filter` can read or change besides its by-value arguments. -/
structure State where
  /-- The heap. -/
  heap : Heap
  /-- The caller's buffer reference `*buf`. -/
  buf : Nat
  /-- The caller's size field `*buf_size`. -/
  buf_size : Nat
  /-- The host error stack, oldest first. -/
  errs : List Diag
  /-- The compressor selected in the backend (`blosc_set_compressor`). -/
  compressor : String
deriving DecidableEq, Repr

/-- What a call of a C function comes to. -/
inductive Result (α : Type) where
  /-- The call reads memory it must not read (behaviour undefined in C). -/
  | undefined
  /-- An `assert` fails and the process is aborted; `s` is the memory and the
  host error stack as they are at that point. -/
  | abort (s : State)
  /-- The function returns. -/
  | ret (a : α)
deriving DecidableEq, Repr

/-! ## `blosc_filter` -/

/-- The `assert`s at the head of `blosc_filter`, lines 176-184. -/
def entry_asserts (cd_values : List Nat) (nbytes : Nat) (s : State) : Prop :=
  cd_values.length ≥ 4 ∧
  cd_values.getD 0 0 = FILTER_BLOSC_VERSION ∧
  cd_values.getD 1 0 = BLOSC_VERSION_FORMAT ∧
  nbytes > 0 ∧
  s.buf_size ≥ nbytes ∧
  (cd_values.getD 2 0 > 0 ∧ cd_values.getD 2 0 ≤ BLOSC_MAX_TYPESIZE)

instance (cd_values : List Nat) (nbytes : Nat) (s : State) :
    Decidable (entry_asserts cd_values nbytes s) := by
  unfold entry_asserts; infer_instance

/-- The values decoded from the optional slots. -/
structure Params where
  clevel : Int
  doshuffle : Int
  compname : String
deriving DecidableEq, Repr

/-- The preprocessor condition of line 192: the library predates bit-shuffle. -/
def bitshuffle_unsupported (B : Blosc) : Bool :=
  decide (B.VERSION_MAJOR ≤ 1) && decide (B.VERSION_MINOR < 8)

/-- Lines 168-212: decode the optional slots 4, 5, 6.  `Except.error d` is a
`goto failed` after pushing the diagnostic `d`. -/
def decode_params (B : Blosc) (cd_values : List Nat) : Except Diag Params :=
  let cd_nelmts := cd_values.length
  let clevel : Int := if cd_nelmts ≥ 5 then toInt (cd_values.getD 4 0) else 5
  let doshuffle : Int := if cd_nelmts ≥ 6 then toInt (cd_values.getD 5 0) else 1
  if cd_nelmts ≥ 6 ∧ bitshuffle_unsupported B = true ∧ doshuffle = BLOSC_BITSHUFFLE then
    .error .version_not_supported
  else if cd_nelmts ≥ 7 then
    let compcode := toInt (cd_values.getD 6 0)
    let complist := B.blosc_list_compressors
    let r := B.blosc_compcode_to_compname compcode
    if r.1 = -1 then .error (.no_support_for_compressor r.2 complist)
    else .ok ⟨clevel, doshuffle, r.2⟩
  else .ok ⟨clevel, doshuffle, "blosclz"⟩

/-- The label `failed:` (lines 292-295): `free(outbuf); return 0;`. -/
def failed (s : State) (outbuf : Nat) : Result (Nat × State) :=
  .ret (0, { s with heap := s.heap.free outbuf })

/-- Lines 284-290: `free(*buf); *buf = outbuf; *buf_size = outbuf_size; return status;`
after the two closing `assert`s. -/
def succeed (s : State) (status : Int) (outbuf : Nat) (outbuf_size : Nat) :
    Result (Nat × State) :=
  if ¬ (status > 0) then .abort s
  else if ¬ (status ≤ (outbuf_size : Int)) then .abort s
  else .ret (status.toNat,
    { s with heap := s.heap.free s.buf, buf := outbuf, buf_size := outbuf_size })

/-- Lines 215-247: the compressing branch.  `*buf` is read where `blosc_compress`
is called; it has to be a block that was live when the filter was entered. -/
def compress_path (B : Blosc) (malloc_ok : Bool) (junk : List Byte) (p : Params)
    (typesize nbytes : Nat) (s : State) : Result (Nat × State) :=
  let outbuf_size := nbytes
  let m := malloc malloc_ok junk s.heap nbytes
  let outbuf := m.1
  let src? := s.heap.lookup s.buf
  let s := { s with heap := m.2 }
  if outbuf = 0 then
    failed { s with errs := s.errs ++ [.cant_allocate_compression_buffer] } outbuf
  else
    let s := { s with compressor := p.compname }
    match src?, s.heap.lookup outbuf with
    | some src, some dest =>
      let c := B.blosc_compress p.compname p.clevel p.doshuffle typesize nbytes src dest nbytes
      let status := c.1
      let s := { s with heap := s.heap.write outbuf c.2 }
      if status = 0 then failed s outbuf
      else if status < 0 then
        failed { s with errs := s.errs ++ [.compression_error] } outbuf
      else if ¬ (status ≤ (nbytes : Int)) then .abort s
      else succeed s status outbuf outbuf_size
    | _, _ => .undefined

/-- Lines 250-282: the decompressing branch. -/
def decompress_path (B : Blosc) (malloc_ok : Bool) (junk : List Byte)
    (nbytes : Nat) (s : State) : Result (Nat × State) :=
  match s.heap.lookup s.buf with
  | none => .undefined
  | some src =>
    let sizes := B.blosc_cbuffer_sizes src
    let outbuf_size := sizes.1
    let cbytes := sizes.2.1
    if ¬ (cbytes = nbytes) then .abort s
    else
      let m := malloc malloc_ok junk s.heap outbuf_size
      let outbuf := m.1
      let s := { s with heap := m.2 }
      if outbuf = 0 then
        failed { s with errs := s.errs ++ [.cant_allocate_decompression_buffer] } outbuf
      else
        match s.heap.lookup outbuf with
        | none => .undefined
        | some dest =>
          let d := B.blosc_decompress src dest outbuf_size
          let status := d.1
          let s := { s with heap := s.heap.write outbuf d.2 }
          if status ≤ 0 then
            failed { s with errs := s.errs ++ [.decompression_error] } outbuf
          else succeed s status outbuf outbuf_size

/-- The filter function, lines 160-297.  `cd_nelmts` is the length of
`cd_values`; `malloc_ok` and `junk` are the outcome of the one `malloc` the
call makes.  The result is the value returned and the state left behind. -/
def blosc_filter (B : Blosc) (malloc_ok : Bool) (junk : List Byte) (flags : Nat)
    (cd_values : List Nat) (nbytes : Nat) (s : State) : Result (Nat × State) :=
  if ¬ entry_asserts cd_values nbytes s then .abort s
  else
    let typesize := cd_values.getD 2 0
    match decode_params B cd_values with
    | .error d => failed { s with errs := s.errs ++ [d] } 0
    | .ok p =>
      if flags &&& H5Z_FLAG_REVERSE = 0 then
        compress_path B malloc_ok junk p typesize nbytes s
      else
        decompress_path B malloc_ok junk nbytes s

/-! ## `blosc_set_local` -/

/-- The datatype classes of HDF5 (`H5T_class_t` in `H5Tpublic.h`). -/
inductive H5T_class_t where
  | H5T_NO_CLASS | H5T_INTEGER | H5T_FLOAT | H5T_TIME | H5T_STRING | H5T_BITFIELD
  | H5T_OPAQUE | H5T_COMPOUND | H5T_REFERENCE | H5T_ENUM | H5T_VLEN | H5T_ARRAY
deriving DecidableEq, Repr

/-- A datatype as the setup callback can see it through `H5Tget_size`,
`H5Tget_class` and `H5Tget_super`: its class, its byte width, and, for a type
derived from another one (an array, for instance), the type it is built on. -/
inductive H5Type where
  | base (classt : H5T_class_t) (size : Nat)
  | derived (classt : H5T_class_t) (size : Nat) (super : H5Type)
deriving DecidableEq, Repr

/-- Host call `H5Tget_size`: the byte width of the type (0 on failure). -/
def H5Tget_size : H5Type → Nat
  | .base _ size => size
  | .derived _ size _ => size

/-- Host call `H5Tget_class`. -/
def H5Tget_class : H5Type → H5T_class_t
  | .base classt _ => classt
  | .derived classt _ _ => classt

/-- Host call `H5Tget_super`: the type a derived type is built on; it fails on a
type that is not derived. -/
def H5Tget_super : H5Type → Option H5Type
  | .base _ _ => none
  | .derived _ _ super => some super

/-- Host call `H5Tarray_create(base, rank, dims)` as `test_array.c` uses it: the
array type whose elements are `dims.prod` values of the type `base`. -/
def H5Tarray_create (base : H5Type) (dims : List Nat) : H5Type :=
  .derived .H5T_ARRAY (H5Tget_size base * dims.prod) base

/-- The entry of the filter pipeline for `FILTER_BLOSC`: the filter flags and the
persisted parameter block. -/
structure Filter where
  flags : Nat
  cd_values : List Nat
deriving DecidableEq, Repr

/-- The parts of a dataset creation property list the setup callback reads and
writes: the pipeline entry of this filter, if the filter is in the pipeline,
and the chunk shape, if the layout is chunked. -/
structure Dcpl where
  filter : Option Filter
  chunk : Option (List Nat)
deriving DecidableEq, Repr

/-- Host call `H5Pget_filter_by_id(dcpl, FILTER_BLOSC, &flags, &cd_nelmts, cd_values, 0, NULL, NULL)`.
It fails (`none`) when the filter is not in the pipeline.  Otherwise it gives
the flags, the number of stored values, and the array `cd_values` in which the
first `min(cd_nelmts, stored)` entries are overwritten with the stored ones. -/
def H5Pget_filter_by_id (dcpl : Dcpl) (cd_nelmts : Nat) (cd_values : List Nat) :
    Option (Nat × Nat × List Nat) :=
  match dcpl.filter with
  | none => none
  | some f =>
    some (f.flags, f.cd_values.length,
      (f.cd_values.take cd_nelmts).take cd_values.length ++
        cd_values.drop (min cd_nelmts f.cd_values.length))

/-- Host call `H5Pget_chunk(dcpl, max_ndims, chunkdims)`: the chunk rank (negative
on failure) and the first `max_ndims` extents. -/
def H5Pget_chunk (dcpl : Dcpl) (max_ndims : Nat) : Int × List Nat :=
  match dcpl.chunk with
  | none => (-1, [])
  | some dims => ((dims.length : Int), dims.take max_ndims)

/-- Host call `H5Pmodify_filter(dcpl, FILTER_BLOSC, flags, cd_nelmts, cd_values)`,
with `cd_values` the `cd_nelmts` values read.  The host either fails and leaves
the property list as it is, or replaces the flags and the values of the entry. -/
def H5Pmodify_filter (ok : Bool) (dcpl : Dcpl) (flags : Nat) (cd_values : List Nat) :
    Int × Dcpl :=
  match ok, dcpl.filter with
  | true, some _ => (0, { dcpl with filter := some ⟨flags, cd_values⟩ })
  | _, _ => (-1, dcpl)

/-- One step of the loop of lines 142-144, `chunksize *= chunkdims[i]`: the
product is formed in `hsize_t` (64 bits) and stored in an `unsigned int`. -/
def chunksize_step (chunksize d : Nat) : Nat :=
  toUnsigned ((chunksize * (d % 2 ^ 64)) % 2 ^ 64)

/-- Lines 141-144: `chunksize = typesize; for (i = 0; i < ndims; i++) chunksize *= chunkdims[i];`. -/
def chunk_size (typesize : Nat) (ndims : Int) (chunkdims : List Nat) : Nat :=
  (chunkdims.take ndims.toNat).foldl chunksize_step typesize

/-- Lines 122-130: the size of the base type.  For a type of class `H5T_ARRAY` it
is the size of the type `H5Tget_super` gives (0 if that call fails, the size
of an invalid identifier); for every other class it is `typesize`. -/
def base_type_size (type : H5Type) (classt : H5T_class_t) (typesize : Nat) : Nat :=
  if classt = .H5T_ARRAY then
    match H5Tget_super type with
    | some super_type => toUnsigned (H5Tget_size super_type)
    | none => 0
  else typesize

/-- The filter setup, lines 75-156.  `modify_ok` is whether the host carries out
`H5Pmodify_filter`.  The result is the status returned, the property list left
behind and the diagnostics pushed.  (The argument `space` is not used by the
C function.) -/
def blosc_set_local (modify_ok : Bool) (dcpl : Dcpl) (type : H5Type) :
    Result (Int × Dcpl × List Diag) :=
  match H5Pget_filter_by_id dcpl 8 [0, 0, 0, 0, 0, 0, 0, 0] with
  | none => .ret (-1, dcpl, [])
  | some (flags, cd_nelmts, cd_values) =>
    let cd_nelmts := if cd_nelmts < 4 then 4 else cd_nelmts
    let cd_values := cd_values.set 0 FILTER_BLOSC_VERSION
    let cd_values := cd_values.set 1 BLOSC_VERSION_FORMAT
    let c := H5Pget_chunk dcpl 32
    let ndims := c.1
    let chunkdims := c.2
    if ndims < 0 then .ret (-1, dcpl, [])
    else if ndims > 32 then .ret (-1, dcpl, [.chunk_rank_exceeds_limit])
    else
      let typesize := toUnsigned (H5Tget_size type)
      if typesize = 0 then .ret (-1, dcpl, [])
      else
        let classt := H5Tget_class type
        if classt = .H5T_NO_CLASS then .ret (-1, dcpl, [])
        else
          let basetypesize := base_type_size type classt typesize
          let basetypesize := if basetypesize > BLOSC_MAX_TYPESIZE then 1 else basetypesize
          let cd_values := cd_values.set 2 basetypesize
          let chunksize := chunk_size typesize ndims chunkdims
          let cd_values := cd_values.set 3 chunksize
          if cd_nelmts > 8 then .undefined
          else
            let m := H5Pmodify_filter modify_ok dcpl flags (cd_values.take cd_nelmts)
            if m.1 < 0 then .ret (-1, m.2, [])
            else .ret (1, m.2, [])

/-- The value in slot `i` of the persisted parameter block, if the filter is in
the pipeline (0 for a slot the block does not have). -/
def Dcpl.slot (dcpl : Dcpl) (i : Nat) : Option Nat :=
  dcpl.filter.map (fun f => f.cd_values.getD i 0)

/-! ## A small backend for the examples -/

/-- Compressor of the example backend: a buffer of `nbytes < 256` equal bytes
becomes the 3-byte stream `[nbytes, 3, value]`; anything else does not fit
(status 0); an empty input is an error (status -1). -/
def run_compress (src dest : List Byte) (nbytes destsize : Nat) : Int × List Byte :=
  match src.take nbytes with
  | [] => (-1, dest)
  | v :: rest =>
    if nbytes < 256 ∧ rest = List.replicate (nbytes - 1) v ∧ rest.length + 1 = nbytes
        ∧ 3 ≤ destsize ∧ 3 ≤ dest.length then
      (3, [UInt8.ofNat nbytes, 3, v] ++ dest.drop 3)
    else (0, dest)

/-- Header reader of the example backend: `(nbytes, cbytes, blocksize)`. -/
def run_cbuffer_sizes (c : List Byte) : Nat × Nat × Nat :=
  ((c.getD 0 0).toNat, (c.getD 1 0).toNat, (c.getD 0 0).toNat)

/-- Decompressor of the example backend. -/
def run_decompress (src dest : List Byte) (destsize : Nat) : Int × List Byte :=
  let n := (src.getD 0 0).toNat
  if n = 0 ∨ destsize < n ∨ dest.length < n then (-1, dest)
  else ((n : Int), List.replicate n (src.getD 2 0) ++ dest.drop n)

/-- The example backend: version 1.21, one compressor, code 0 named "blosclz". -/
def runBackend : Blosc where
  VERSION_MAJOR := 1
  VERSION_MINOR := 21
  blosc_list_compressors := "blosclz"
  blosc_compcode_to_compname := fun code =>
    if code = 0 then (0, "blosclz") else (-1, "(null)")
  blosc_compress := fun _ _ _ _ nbytes src dest destsize =>
    run_compress src dest nbytes destsize
  blosc_cbuffer_sizes := run_cbuffer_sizes
  blosc_decompress := run_decompress

/-- The example chunk of eight equal bytes, held in the block at address 1. -/
def chunk8 : State := ⟨⟨[(1, [7, 7, 7, 7, 7, 7, 7, 7])]⟩, 1, 8, [], ""⟩

/-- The example chunk of four distinct bytes, held in the block at address 1. -/
def chunk4 : State := ⟨⟨[(1, [1, 2, 3, 4])]⟩, 1, 4, [], ""⟩

/-! ## The contract of the backend -/

/-- What the round trip asks of the backend: after a successful `blosc_compress`
of the `src.length` bytes of `src` into a buffer `dest` of the same size,
`blosc_cbuffer_sizes` reports the sizes `blosc_compress` wrote, and
`blosc_decompress` into a buffer of `src.length` bytes gives `src` back. -/
structure Blosc.Contract (B : Blosc) : Prop where
  sizes : ∀ (compname : String) (clevel doshuffle : Int) (typesize : Nat)
      (src dest : List Byte), dest.length = src.length →
    0 < (B.blosc_compress compname clevel doshuffle typesize src.length src dest
          src.length).1 →
    (B.blosc_cbuffer_sizes (B.blosc_compress compname clevel doshuffle typesize
        src.length src dest src.length).2).1 = src.length ∧
    (((B.blosc_cbuffer_sizes (B.blosc_compress compname clevel doshuffle typesize
        src.length src dest src.length).2).2.1 : Nat) : Int) =
      (B.blosc_compress compname clevel doshuffle typesize src.length src dest
        src.length).1
  inverse : ∀ (compname : String) (clevel doshuffle : Int) (typesize : Nat)
      (src dest dest2 : List Byte), dest.length = src.length →
    0 < (B.blosc_compress compname clevel doshuffle typesize src.length src dest
          src.length).1 →
    dest2.length = src.length →
    B.blosc_decompress (B.blosc_compress compname clevel doshuffle typesize
        src.length src dest src.length).2 dest2 src.length = ((src.length : Int), src)

/-! ## `register_blosc` -/

/-- What a call of `register_blosc` leaves behind: the value returned, the strings
now in `*version` and `*date` (`none` where the function wrote nothing), and
the host error stack. -/
structure Registration where
  status : Int
  version : Option String
  date : Option String
  errs : List Diag
deriving DecidableEq, Repr

/-- Registration of the filter, lines 41-64.  `retval` is the value the host call
`H5Zregister(&filter_class)` returns; `BLOSC_VERSION_STRING` and
`BLOSC_VERSION_DATE` are the two macros of `blosc.h`; `version` and `date`
say whether the two output arguments are non-`NULL`; `errs` is the host error
stack on entry.  The copies made by `strdup` are taken to succeed. -/
def register_blosc (retval : Int) (BLOSC_VERSION_STRING BLOSC_VERSION_DATE : String)
    (version date : Bool) (errs : List Diag) : Registration :=
  let errs := if retval < 0 then errs ++ [.cant_register] else errs
  if version = true ∧ date = true then
    ⟨1, some BLOSC_VERSION_STRING, some BLOSC_VERSION_DATE, errs⟩
  else
    ⟨1, none, none, errs⟩

/-! ## The base type in the words of the specification -/

/-- The innermost non-array type of a datatype, as section 4.1 step 3 of the
specification describes the resolution: an "array of base type" is resolved,
recursively, to its base type; every other type is its own base type.  (This
is the specification's reading; `blosc_set_local` computes `base_type_size`.) -/
def innermost_base_type : H5Type → H5Type
  | .base classt size => .base classt size
  | .derived classt size super =>
    if classt = .H5T_ARRAY then innermost_base_type super
    else .derived classt size super

/-! ## Two more backends for the examples -/

/-- Compressor of the backend `echoBackend`: it refuses a negative compression
level (status -1), and otherwise writes the arguments it was called with into
the first four bytes of its output: the level, the reorder mode, the element
size and the length of the name of the selected compressor. -/
def echo_compress (compname : String) (clevel doshuffle : Int) (typesize : Nat)
    (dest : List Byte) (destsize : Nat) : Int × List Byte :=
  if clevel < 0 then (-1, dest)
  else if 4 ≤ destsize ∧ 4 ≤ dest.length then
    (4, [UInt8.ofNat clevel.toNat, UInt8.ofNat doshuffle.toNat, UInt8.ofNat typesize,
      UInt8.ofNat compname.length] ++ dest.drop 4)
  else (0, dest)

/-- A backend that shows what it is called with: version 1.21, two compressors,
code 0 named "blosclz" and code 1 named "lz4", and the compressor
`echo_compress`. -/
def echoBackend : Blosc where
  VERSION_MAJOR := 1
  VERSION_MINOR := 21
  blosc_list_compressors := "blosclz,lz4"
  blosc_compcode_to_compname := fun code =>
    if code = 0 then (0, "blosclz") else if code = 1 then (1, "lz4") else (-1, "(null)")
  blosc_compress := fun compname clevel doshuffle typesize _ _ dest destsize =>
    echo_compress compname clevel doshuffle typesize dest destsize
  blosc_cbuffer_sizes := run_cbuffer_sizes
  blosc_decompress := run_decompress

/-! ## Facts about the heap -/

theorem Heap.lt_fresh (h : Heap) (b : Nat × List Byte) (hb : b ∈ h.blocks) :
    b.1 < h.fresh := by
  obtain ⟨blocks⟩ := h
  simp only [Heap.fresh] at *
  induction blocks with
  | nil => simp at hb
  | cons a t ih =>
    simp only [List.map_cons, List.foldr_cons]
    rcases List.mem_cons.mp hb with rfl | hb
    · omega
    · have := ih hb
      omega

theorem Heap.fresh_pos (h : Heap) : h.fresh ≠ 0 := by
  simp [Heap.fresh]

theorem Heap.filter_fresh (h : Heap) :
    h.blocks.filter (fun b => b.1 != h.fresh) = h.blocks := by
  apply List.filter_eq_self.mpr
  intro b hb
  have := h.lt_fresh b hb
  simp only [bne_iff_ne, ne_eq]
  omega

theorem Heap.map_fresh (h : Heap) (c : List Byte) :
    h.blocks.map (fun b => if b.1 == h.fresh then (b.1, c) else b) = h.blocks := by
  conv_rhs => rw [← List.map_id h.blocks]
  apply List.map_congr_left
  intro b hb
  have := h.lt_fresh b hb
  have hne : ¬ b.1 = h.fresh := by omega
  simp [hne]

theorem Heap.lookup_fresh (h : Heap) : h.lookup h.fresh = none := by
  simp only [Heap.lookup, Option.map_eq_none', List.find?_eq_none]
  intro b hb
  have := h.lt_fresh b hb
  simp only [beq_iff_eq]
  omega

theorem Heap.ne_fresh_of_lookup (h : Heap) (p : Nat) (x : List Byte)
    (hp : h.lookup p = some x) : p ≠ h.fresh := by
  intro e
  rw [e, h.lookup_fresh] at hp
  cases hp

/-- Writing `c` into a block just allocated. -/
theorem Heap.write_alloc (h : Heap) (x c : List Byte) :
    Heap.write ⟨(h.fresh, x) :: h.blocks⟩ h.fresh c = ⟨(h.fresh, c) :: h.blocks⟩ := by
  have := h.map_fresh c
  simp only [beq_iff_eq] at this
  simp [Heap.write, this]

/-- Releasing a block just allocated gives the heap back. -/
theorem Heap.free_alloc (h : Heap) (c : List Byte) :
    Heap.free ⟨(h.fresh, c) :: h.blocks⟩ h.fresh = h := by
  simp [Heap.free, h.fresh_pos, h.filter_fresh]

theorem Heap.lookup_alloc_self (h : Heap) (c : List Byte) :
    Heap.lookup ⟨(h.fresh, c) :: h.blocks⟩ h.fresh = some c := by
  simp [Heap.lookup]

theorem Heap.lookup_alloc_ne (h : Heap) (c : List Byte) (p : Nat) (hp : p ≠ h.fresh) :
    Heap.lookup ⟨(h.fresh, c) :: h.blocks⟩ p = h.lookup p := by
  have : ¬ h.fresh = p := fun e => hp e.symm
  simp [Heap.lookup, List.find?_cons, this]

theorem Heap.free_zero (h : Heap) : h.free 0 = h := by
  simp [Heap.free]

/-- Releasing another block does not touch the block at `p`. -/
theorem Heap.lookup_free_ne (h : Heap) (p q : Nat) (hpq : p ≠ q) :
    (h.free q).lookup p = h.lookup p := by
  unfold Heap.free
  split
  · rfl
  · obtain ⟨blocks⟩ := h
    simp only [Heap.lookup]
    congr 1
    induction blocks with
    | nil => rfl
    | cons a t ih =>
      by_cases ha : a.1 = q
      · have h1 : ¬ a.1 = p := fun e => hpq (e.symm.trans ha)
        have h2 : ¬ q = p := fun e => hpq e.symm
        simp [List.filter_cons, List.find?_cons, ha, h2, ih]
      · by_cases h1 : a.1 = p
        · have h2 : ¬ p = q := hpq
          have h3 : ¬ a.1 = q := ha
          have h4 : (a.1 != q) = true := by simpa using h3
          have h5 : (a.1 == p) = true := by simpa using h1
          simp only [List.filter_cons, h4, if_true, List.find?_cons, h5]
        · simp [List.filter_cons, List.find?_cons, ha, h1, ih]

/-- A released block is no longer live. -/
theorem Heap.lookup_free_self (h : Heap) (p : Nat) (hp : p ≠ 0) :
    (h.free p).lookup p = none := by
  simp only [Heap.free, hp, if_false, Heap.lookup, Option.map_eq_none', List.find?_eq_none]
  intro b hb
  simp only [List.mem_filter, bne_iff_ne, ne_eq] at hb
  simpa using hb.2

/-! ## The two branches of `blosc_filter`, path by path -/

theorem compress_path_nomem (B : Blosc) (junk : List Byte) (p : Params)
    (typesize nbytes : Nat) (s : State) :
    compress_path B false junk p typesize nbytes s =
      .ret (0, { s with errs := s.errs ++ [.cant_allocate_compression_buffer] }) := by
  simp [compress_path, malloc, failed, Heap.free_zero]

theorem compress_path_dangling (B : Blosc) (junk : List Byte) (p : Params)
    (typesize nbytes : Nat) (s : State) (hsrc : s.heap.lookup s.buf = none) :
    compress_path B true junk p typesize nbytes s = .undefined := by
  simp [compress_path, malloc, s.heap.fresh_pos, hsrc]

/-- The compressing branch when the allocation succeeds and `*buf` is live with
content `src`: what the branch returns is decided by the status of
`blosc_compress`. -/
theorem compress_path_eq (B : Blosc) (junk : List Byte) (p : Params)
    (typesize nbytes : Nat) (s : State) (src : List Byte)
    (hsrc : s.heap.lookup s.buf = some src) :
    compress_path B true junk p typesize nbytes s =
      (if (B.blosc_compress p.compname p.clevel p.doshuffle typesize nbytes src
            (freshBlock nbytes junk) nbytes).1 = 0 then
        .ret (0, { s with compressor := p.compname })
      else if (B.blosc_compress p.compname p.clevel p.doshuffle typesize nbytes src
            (freshBlock nbytes junk) nbytes).1 < 0 then
        .ret (0, { s with compressor := p.compname,
                          errs := s.errs ++ [.compression_error] })
      else if ¬ ((B.blosc_compress p.compname p.clevel p.doshuffle typesize nbytes src
            (freshBlock nbytes junk) nbytes).1 ≤ (nbytes : Int)) then
        .abort
          { heap := ⟨(s.heap.fresh, (B.blosc_compress p.compname p.clevel
                p.doshuffle typesize nbytes src (freshBlock nbytes junk) nbytes).2)
                  :: s.heap.blocks⟩,
            buf := s.buf, buf_size := s.buf_size, errs := s.errs,
            compressor := p.compname }
      else
        .ret ((B.blosc_compress p.compname p.clevel p.doshuffle typesize nbytes src
            (freshBlock nbytes junk) nbytes).1.toNat,
          { heap := Heap.free ⟨(s.heap.fresh, (B.blosc_compress p.compname p.clevel
                p.doshuffle typesize nbytes src (freshBlock nbytes junk) nbytes).2)
                  :: s.heap.blocks⟩ s.buf,
            buf := s.heap.fresh, buf_size := nbytes, errs := s.errs,
            compressor := p.compname })) := by
  simp only [compress_path, malloc, if_true, s.heap.fresh_pos, if_false,
    hsrc, Heap.lookup_alloc_self, Heap.write_alloc, failed, Heap.free_alloc, succeed]
  split
  · rfl
  · split
    · rfl
    · split
      · rfl
      · rename_i h0 h1 h2
        have hpos : (B.blosc_compress p.compname p.clevel p.doshuffle typesize nbytes src
            (freshBlock nbytes junk) nbytes).1 > 0 := by omega
        simp only [not_not] at h2
        simp [hpos, h2]

theorem decompress_path_dangling (B : Blosc) (ok : Bool) (junk : List Byte)
    (nbytes : Nat) (s : State) (hsrc : s.heap.lookup s.buf = none) :
    decompress_path B ok junk nbytes s = .undefined := by
  simp [decompress_path, hsrc]

theorem decompress_path_nomem (B : Blosc) (junk : List Byte) (nbytes : Nat) (s : State)
    (src : List Byte) (hsrc : s.heap.lookup s.buf = some src) :
    decompress_path B false junk nbytes s =
      (if ¬ ((B.blosc_cbuffer_sizes src).2.1 = nbytes) then .abort s
       else .ret (0, { s with errs := s.errs ++ [.cant_allocate_decompression_buffer] })) := by
  simp [decompress_path, hsrc, malloc, failed, Heap.free_zero]

/-- The decompressing branch when the allocation succeeds and `*buf` is live with
content `src`. -/
theorem decompress_path_eq (B : Blosc) (junk : List Byte) (nbytes : Nat) (s : State)
    (src : List Byte) (hsrc : s.heap.lookup s.buf = some src) :
    decompress_path B true junk nbytes s =
      (if ¬ ((B.blosc_cbuffer_sizes src).2.1 = nbytes) then .abort s
       else if (B.blosc_decompress src (freshBlock (B.blosc_cbuffer_sizes src).1 junk)
            (B.blosc_cbuffer_sizes src).1).1 ≤ 0 then
        .ret (0, { s with errs := s.errs ++ [.decompression_error] })
       else if ¬ ((B.blosc_decompress src (freshBlock (B.blosc_cbuffer_sizes src).1 junk)
            (B.blosc_cbuffer_sizes src).1).1 ≤ ((B.blosc_cbuffer_sizes src).1 : Int)) then
        .abort
          { heap := ⟨(s.heap.fresh, (B.blosc_decompress src
                (freshBlock (B.blosc_cbuffer_sizes src).1 junk)
                (B.blosc_cbuffer_sizes src).1).2) :: s.heap.blocks⟩,
            buf := s.buf, buf_size := s.buf_size, errs := s.errs,
            compressor := s.compressor }
       else
        .ret ((B.blosc_decompress src (freshBlock (B.blosc_cbuffer_sizes src).1 junk)
            (B.blosc_cbuffer_sizes src).1).1.toNat,
          { heap := Heap.free ⟨(s.heap.fresh, (B.blosc_decompress src
                (freshBlock (B.blosc_cbuffer_sizes src).1 junk)
                (B.blosc_cbuffer_sizes src).1).2) :: s.heap.blocks⟩ s.buf,
            buf := s.heap.fresh, buf_size := (B.blosc_cbuffer_sizes src).1,
            errs := s.errs, compressor := s.compressor })) := by
  simp only [decompress_path, malloc, if_true, s.heap.fresh_pos, if_false,
    hsrc, Heap.lookup_alloc_self, Heap.write_alloc, failed, Heap.free_alloc, succeed]
  split
  · rfl
  · split
    · rfl
    · rename_i h0 h1
      have hpos : (B.blosc_decompress src (freshBlock (B.blosc_cbuffer_sizes src).1 junk)
            (B.blosc_cbuffer_sizes src).1).1 > 0 := by omega
      simp only [hpos, not_true_eq_false, if_false]

/-! ## `blosc_filter`: which branch runs -/

theorem blosc_filter_abort (B : Blosc) (ok : Bool) (junk : List Byte) (flags : Nat)
    (cd_values : List Nat) (nbytes : Nat) (s : State)
    (h : ¬ entry_asserts cd_values nbytes s) :
    blosc_filter B ok junk flags cd_values nbytes s = .abort s := by
  simp [blosc_filter, h]

theorem blosc_filter_decode_error (B : Blosc) (ok : Bool) (junk : List Byte) (flags : Nat)
    (cd_values : List Nat) (nbytes : Nat) (s : State) (d : Diag)
    (h : entry_asserts cd_values nbytes s) (hd : decode_params B cd_values = .error d) :
    blosc_filter B ok junk flags cd_values nbytes s =
      .ret (0, { s with errs := s.errs ++ [d] }) := by
  simp [blosc_filter, h, hd, failed, Heap.free_zero]

theorem blosc_filter_forward (B : Blosc) (ok : Bool) (junk : List Byte) (flags : Nat)
    (cd_values : List Nat) (nbytes : Nat) (s : State) (p : Params)
    (h : entry_asserts cd_values nbytes s) (hd : decode_params B cd_values = .ok p)
    (hf : flags &&& H5Z_FLAG_REVERSE = 0) :
    blosc_filter B ok junk flags cd_values nbytes s =
      compress_path B ok junk p (cd_values.getD 2 0) nbytes s := by
  simp [blosc_filter, h, hd, hf]

theorem blosc_filter_reverse (B : Blosc) (ok : Bool) (junk : List Byte) (flags : Nat)
    (cd_values : List Nat) (nbytes : Nat) (s : State) (p : Params)
    (h : entry_asserts cd_values nbytes s) (hd : decode_params B cd_values = .ok p)
    (hf : flags &&& H5Z_FLAG_REVERSE ≠ 0) :
    blosc_filter B ok junk flags cd_values nbytes s =
      decompress_path B ok junk nbytes s := by
  simp [blosc_filter, h, hd, hf]

/-- A call that returns 0 leaves `*buf`, `*buf_size` and the whole heap as they
were: the scratch buffer, if one was allocated, has been released. -/
theorem blosc_filter_zero_frame (B : Blosc) (ok : Bool) (junk : List Byte) (flags : Nat)
    (cd_values : List Nat) (nbytes : Nat) (s s' : State)
    (h : blosc_filter B ok junk flags cd_values nbytes s = .ret (0, s')) :
    s'.buf = s.buf ∧ s'.buf_size = s.buf_size ∧ s'.heap = s.heap := by
  by_cases ha : entry_asserts cd_values nbytes s
  swap
  · rw [blosc_filter_abort B ok junk flags cd_values nbytes s ha] at h; cases h
  cases hd : decode_params B cd_values with
  | error d =>
    rw [blosc_filter_decode_error B ok junk flags cd_values nbytes s d ha hd] at h
    cases h; exact ⟨rfl, rfl, rfl⟩
  | ok p =>
    by_cases hf : flags &&& H5Z_FLAG_REVERSE = 0
    · rw [blosc_filter_forward B ok junk flags cd_values nbytes s p ha hd hf] at h
      cases ok with
      | false =>
        rw [compress_path_nomem] at h; cases h; exact ⟨rfl, rfl, rfl⟩
      | true =>
        cases hsrc : s.heap.lookup s.buf with
        | none => rw [compress_path_dangling _ _ _ _ _ _ hsrc] at h; cases h
        | some src =>
          rw [compress_path_eq _ _ _ _ _ _ src hsrc] at h
          split at h
          · cases h; exact ⟨rfl, rfl, rfl⟩
          · split at h
            · cases h; exact ⟨rfl, rfl, rfl⟩
            · split at h
              · cases h
              · rename_i h0 h1 h2
                injection h with h
                injection h with h3 h4
                omega
    · rw [blosc_filter_reverse B ok junk flags cd_values nbytes s p ha hd hf] at h
      cases hsrc : s.heap.lookup s.buf with
      | none => rw [decompress_path_dangling _ _ _ _ _ hsrc] at h; cases h
      | some src =>
        cases ok with
        | false =>
          rw [decompress_path_nomem _ _ _ _ src hsrc] at h
          split at h
          · cases h
          · cases h; exact ⟨rfl, rfl, rfl⟩
        | true =>
          rw [decompress_path_eq _ _ _ _ src hsrc] at h
          split at h
          · cases h
          · split at h
            · cases h; exact ⟨rfl, rfl, rfl⟩
            · split at h
              · cases h
              · rename_i h0 h1 h2
                injection h with h
                injection h with h3 h4
                omega

/-! ## The example backend -/

theorem freshBlock_length (size : Nat) (junk : List Byte) :
    (freshBlock size junk).length = size := by
  simp [freshBlock]

theorem toNat_ofNat_of_lt (n : Nat) (h : n < 256) : (UInt8.ofNat n).toNat = n := by
  simp [UInt8.toNat, UInt8.ofNat, Fin.ofNat, Nat.mod_eq_of_lt h]

/-- A positive status of the example compressor: the input was a run. -/
theorem run_compress_pos (src dest : List Byte) (nbytes destsize : Nat)
    (h : 0 < (run_compress src dest nbytes destsize).1) :
    ∃ v, nbytes < 256 ∧ 0 < nbytes ∧ src.take nbytes = List.replicate nbytes v ∧
      run_compress src dest nbytes destsize =
        (3, UInt8.ofNat nbytes :: 3 :: v :: dest.drop 3) := by
  unfold run_compress at h ⊢
  split at h
  · simp at h
  · rename_i v rest heq
    split at h
    · rename_i hc
      refine ⟨v, hc.1, by omega, ?_, ?_⟩
      · rw [heq]
        have h1 := hc.2.1
        have h2 := hc.2.2.1
        rw [h1, ← h2]
        simp [List.replicate_succ]
      · simp only [if_pos hc]; rfl
    · simp at h

/-- The example backend keeps the contract. -/
theorem runBackend_contract : runBackend.Contract := by
  constructor
  · intro _ _ _ _ src dest hd hpos
    simp only [runBackend] at hpos ⊢
    obtain ⟨v, hlt, h0, hsrc, heq⟩ := run_compress_pos _ _ _ _ hpos
    rw [heq]
    simp [run_cbuffer_sizes, toNat_ofNat_of_lt _ hlt]
  · intro _ _ _ _ src dest dest2 hd hpos hd2
    simp only [runBackend] at hpos ⊢
    obtain ⟨v, hlt, h0, hsrc, heq⟩ := run_compress_pos _ _ _ _ hpos
    rw [heq]
    rw [List.take_length] at hsrc
    have h1 : ¬ (src.length = 0 ∨ src.length < src.length ∨ dest2.length < src.length) := by
      omega
    have h2 : dest2.drop src.length = [] := by
      apply List.drop_eq_nil_of_le; omega
    simp only [run_decompress, List.getD_cons_zero, List.getD_cons_succ,
      toNat_ofNat_of_lt _ hlt, if_neg h1, h2, List.append_nil, ← hsrc]

/-! ## The claims about `blosc_filter` -/

/-- C1 (round trip of `blosc_filter`).  Let the backend keep its contract, let the
caller's buffer hold the non-empty bytes `b`, and let the forward call (flags
without `H5Z_FLAG_REVERSE`) on the `b.length` bytes return `n > 0`, leaving
the state `s1` whose buffer is the compressed chunk.  Then the reverse call
(flags with `H5Z_FLAG_REVERSE`) with the same parameter block on that buffer
with `nbytes = n`, its allocation succeeding, returns `b.length`, and the
buffer it hands back holds exactly the bytes of `b`, with `*buf_size = b.length`.
That the block is one the transformer accepts follows from the success of the
forward call. -/
theorem blosc_filter_round_trip (B : Blosc) (hB : B.Contract) (ok : Bool)
    (junk junk2 : List Byte) (flags flags2 : Nat) (cd_values : List Nat)
    (b : List Byte) (s s1 : State) (n : Nat)
    (hb : b ≠ [])
    (hbuf : s.heap.lookup s.buf = some b)
    (hfwd : flags &&& H5Z_FLAG_REVERSE = 0)
    (hrev : flags2 &&& H5Z_FLAG_REVERSE ≠ 0)
    (h : blosc_filter B ok junk flags cd_values b.length s = .ret (n, s1))
    (hn : 0 < n) :
    ∃ s2, blosc_filter B true junk2 flags2 cd_values n s1 = .ret (b.length, s2) ∧
      s2.heap.lookup s2.buf = some b ∧ s2.buf_size = b.length := by
  by_cases ha : entry_asserts cd_values b.length s
  swap
  · rw [blosc_filter_abort B ok junk flags cd_values _ s ha] at h; cases h
  cases hd : decode_params B cd_values with
  | error d =>
    rw [blosc_filter_decode_error B ok junk flags cd_values _ s d ha hd] at h
    cases h; omega
  | ok p =>
    rw [blosc_filter_forward B ok junk flags cd_values _ s p ha hd hfwd] at h
    cases ok with
    | false => rw [compress_path_nomem] at h; cases h; omega
    | true =>
      rw [compress_path_eq _ _ _ _ _ _ b hbuf] at h
      have hfl := freshBlock_length b.length junk
      generalize hc : B.blosc_compress p.compname p.clevel p.doshuffle (cd_values.getD 2 0)
        b.length b (freshBlock b.length junk) b.length = c at h
      have hsz := hB.sizes p.compname p.clevel p.doshuffle (cd_values.getD 2 0) b
        (freshBlock b.length junk) hfl
      have hinv := hB.inverse p.compname p.clevel p.doshuffle (cd_values.getD 2 0) b
        (freshBlock b.length junk) (freshBlock b.length junk2) hfl
      rw [hc] at hsz hinv
      split at h
      · cases h; omega
      · split at h
        · cases h; omega
        · split at h
          · cases h
          · rename_i h0 h1 h2
            have hpos : 0 < c.1 := by omega
            injection h with h
            injection h with hn1 hs1
            subst hs1
            obtain ⟨hsz1, hsz2⟩ := hsz hpos
            have hinv := hinv hpos (freshBlock_length _ _)
            have hne : s.heap.fresh ≠ s.buf :=
              fun e => s.heap.ne_fresh_of_lookup s.buf b hbuf e.symm
            have hlk : (Heap.free ⟨(s.heap.fresh, c.2) :: s.heap.blocks⟩ s.buf).lookup
                s.heap.fresh = some c.2 := by
              rw [Heap.lookup_free_ne _ _ _ hne, Heap.lookup_alloc_self]
            have ha2 : entry_asserts cd_values n
                { heap := Heap.free ⟨(s.heap.fresh, c.2) :: s.heap.blocks⟩ s.buf,
                  buf := s.heap.fresh, buf_size := b.length, errs := s.errs,
                  compressor := p.compname } := by
              obtain ⟨a1, a2, a3, a4, a5, a6⟩ := ha
              refine ⟨a1, a2, a3, hn, ?_, a6⟩
              simp only [ge_iff_le]
              omega
            rw [blosc_filter_reverse B true junk2 flags2 cd_values n _ p ha2 hd hrev,
              decompress_path_eq _ _ _ _ c.2 hlk]
            have hcb : (B.blosc_cbuffer_sizes c.2).2.1 = n := by omega
            simp only [hcb, not_true_eq_false, if_false, hsz1, hinv]
            have hlen : 0 < b.length := List.length_pos.mpr hb
            have h3 : ¬ ((b.length : Int) ≤ 0) := by omega
            simp only [h3, if_false, le_refl, not_true_eq_false, Int.toNat_ofNat]
            refine ⟨_, rfl, ?_, rfl⟩
            simp only
            rw [Heap.lookup_free_ne, Heap.lookup_alloc_self]
            exact fun e => Heap.ne_fresh_of_lookup _ _ _ hlk e.symm

/-- Witness of C1: eight equal bytes, compressed to three by the example backend
and decompressed again. -/
theorem blosc_filter_round_trip_witness :
    blosc_filter runBackend true [] 0 [2, 2, 1, 8] 8 chunk8 =
      .ret (3, ⟨⟨[(2, [8, 3, 7, 0, 0, 0, 0, 0])]⟩, 2, 8, [], "blosclz"⟩) ∧
    ∃ s2, blosc_filter runBackend true [] 256 [2, 2, 1, 8] 3
        ⟨⟨[(2, [8, 3, 7, 0, 0, 0, 0, 0])]⟩, 2, 8, [], "blosclz"⟩ =
          .ret (([7, 7, 7, 7, 7, 7, 7, 7] : List Byte).length, s2) ∧
      s2.heap.lookup s2.buf = some [7, 7, 7, 7, 7, 7, 7, 7] ∧
      s2.buf_size = ([7, 7, 7, 7, 7, 7, 7, 7] : List Byte).length :=
  ⟨by decide,
   blosc_filter_round_trip runBackend runBackend_contract true [] [] 0 256 [2, 2, 1, 8]
    [7, 7, 7, 7, 7, 7, 7, 7] chunk8 _ 3 (by decide) (by decide) (by decide) (by decide)
    (by decide) (by decide)⟩

/-- C2 (failure postcondition of `blosc_filter`).  For a call that passes the entry
`assert`s, each way of failing returns 0 and leaves `*buf`, `*buf_size` and the
heap (so the bytes `*buf` points to) exactly as they were, the scratch buffer
released: (1) a slot that cannot be decoded, which is unsupported bit-shuffle
or a compressor selector unknown to the backend; (2) in the forward direction,
an allocation failure or a status `<= 0` of `blosc_compress`; (3) in the
reverse direction, an allocation failure or a status `<= 0` of
`blosc_decompress`.  And (4) whatever the inputs, every call that returns 0
leaves `*buf`, `*buf_size` and the heap as they were. -/
theorem blosc_filter_failure_postcondition (B : Blosc) (ok : Bool) (junk : List Byte)
    (flags : Nat) (cd_values : List Nat) (nbytes : Nat) (s : State)
    (ha : entry_asserts cd_values nbytes s) :
    (∀ d, decode_params B cd_values = .error d →
      ∃ s', blosc_filter B ok junk flags cd_values nbytes s = .ret (0, s') ∧
        s'.buf = s.buf ∧ s'.buf_size = s.buf_size ∧ s'.heap = s.heap) ∧
    (∀ p src, decode_params B cd_values = .ok p → s.heap.lookup s.buf = some src →
      (flags &&& H5Z_FLAG_REVERSE = 0 →
        (ok = false ∨ (B.blosc_compress p.compname p.clevel p.doshuffle
            (cd_values.getD 2 0) nbytes src (freshBlock nbytes junk) nbytes).1 ≤ 0) →
        ∃ s', blosc_filter B ok junk flags cd_values nbytes s = .ret (0, s') ∧
          s'.buf = s.buf ∧ s'.buf_size = s.buf_size ∧ s'.heap = s.heap) ∧
      (flags &&& H5Z_FLAG_REVERSE ≠ 0 → (B.blosc_cbuffer_sizes src).2.1 = nbytes →
        (ok = false ∨ (B.blosc_decompress src
            (freshBlock (B.blosc_cbuffer_sizes src).1 junk)
            (B.blosc_cbuffer_sizes src).1).1 ≤ 0) →
        ∃ s', blosc_filter B ok junk flags cd_values nbytes s = .ret (0, s') ∧
          s'.buf = s.buf ∧ s'.buf_size = s.buf_size ∧ s'.heap = s.heap)) ∧
    (∀ s', blosc_filter B ok junk flags cd_values nbytes s = .ret (0, s') →
      s'.buf = s.buf ∧ s'.buf_size = s.buf_size ∧ s'.heap = s.heap) := by
  have key : ∀ s', blosc_filter B ok junk flags cd_values nbytes s = .ret (0, s') →
      s'.buf = s.buf ∧ s'.buf_size = s.buf_size ∧ s'.heap = s.heap :=
    fun s' h => blosc_filter_zero_frame B ok junk flags cd_values nbytes s s' h
  have wrap : (∃ s', blosc_filter B ok junk flags cd_values nbytes s = .ret (0, s')) →
      ∃ s', blosc_filter B ok junk flags cd_values nbytes s = .ret (0, s') ∧
        s'.buf = s.buf ∧ s'.buf_size = s.buf_size ∧ s'.heap = s.heap :=
    fun ⟨s', h⟩ => ⟨s', h, key s' h⟩
  refine ⟨?_, ?_, key⟩
  · intro d hd
    exact wrap ⟨_, blosc_filter_decode_error B ok junk flags cd_values nbytes s d ha hd⟩
  · intro p src hd hsrc
    constructor
    · intro hf hc
      apply wrap
      rw [blosc_filter_forward B ok junk flags cd_values nbytes s p ha hd hf]
      cases ok with
      | false => exact ⟨_, compress_path_nomem _ _ _ _ _ _⟩
      | true =>
        have hc : (B.blosc_compress p.compname p.clevel p.doshuffle
            (cd_values.getD 2 0) nbytes src (freshBlock nbytes junk) nbytes).1 ≤ 0 := by
          rcases hc with hc | hc
          · cases hc
          · exact hc
        rw [compress_path_eq _ _ _ _ _ _ src hsrc]
        split
        · exact ⟨_, rfl⟩
        · rename_i h0
          have : (B.blosc_compress p.compname p.clevel p.doshuffle
            (cd_values.getD 2 0) nbytes src (freshBlock nbytes junk) nbytes).1 < 0 := by
            omega
          rw [if_pos this]
          exact ⟨_, rfl⟩
    · intro hf hcb hc
      apply wrap
      rw [blosc_filter_reverse B ok junk flags cd_values nbytes s p ha hd hf]
      cases ok with
      | false =>
        rw [decompress_path_nomem _ _ _ _ src hsrc]
        simp only [hcb, not_true_eq_false, if_false]
        exact ⟨_, rfl⟩
      | true =>
        have hc : (B.blosc_decompress src (freshBlock (B.blosc_cbuffer_sizes src).1 junk)
            (B.blosc_cbuffer_sizes src).1).1 ≤ 0 := by
          rcases hc with hc | hc
          · cases hc
          · exact hc
        rw [decompress_path_eq _ _ _ _ src hsrc]
        simp only [hcb, not_true_eq_false, if_false]
        rw [if_pos hc]
        exact ⟨_, rfl⟩

/-- Witness of C2: the four distinct bytes of a tiny chunk do not compress; the
call returns 0 and the chunk is as it was. -/
theorem blosc_filter_failure_postcondition_witness :
    entry_asserts [2, 2, 4, 4] 4 chunk4 ∧
    blosc_filter runBackend true [] 0 [2, 2, 4, 4] 4 chunk4 =
      .ret (0, { chunk4 with compressor := "blosclz" }) ∧
    ({ chunk4 with compressor := "blosclz" } : State).buf = chunk4.buf ∧
    ({ chunk4 with compressor := "blosclz" } : State).buf_size = chunk4.buf_size ∧
    ({ chunk4 with compressor := "blosclz" } : State).heap = chunk4.heap :=
  ⟨by decide, by decide,
    (blosc_filter_failure_postcondition runBackend true [] 0 [2, 2, 4, 4] 4 chunk4
      (by decide)).2.2 _ (by decide)⟩

/-- A call that returns a value `r > 0` went through the closing lines 284-290. -/
theorem blosc_filter_success (B : Blosc) (ok : Bool) (junk : List Byte) (flags : Nat)
    (cd_values : List Nat) (nbytes : Nat) (s s' : State) (r : Nat)
    (h : blosc_filter B ok junk flags cd_values nbytes s = .ret (r, s')) (hr : 0 < r) :
    ∃ src p, s.heap.lookup s.buf = some src ∧ decode_params B cd_values = .ok p ∧
      entry_asserts cd_values nbytes s ∧ ok = true ∧
      ((flags &&& H5Z_FLAG_REVERSE = 0 ∧
        0 < (B.blosc_compress p.compname p.clevel p.doshuffle (cd_values.getD 2 0) nbytes
            src (freshBlock nbytes junk) nbytes).1 ∧
        (B.blosc_compress p.compname p.clevel p.doshuffle (cd_values.getD 2 0) nbytes
            src (freshBlock nbytes junk) nbytes).1 ≤ (nbytes : Int) ∧
        (r : Int) = (B.blosc_compress p.compname p.clevel p.doshuffle (cd_values.getD 2 0)
            nbytes src (freshBlock nbytes junk) nbytes).1 ∧
        s' = { heap := Heap.free ⟨(s.heap.fresh, (B.blosc_compress p.compname p.clevel
                p.doshuffle (cd_values.getD 2 0) nbytes src (freshBlock nbytes junk)
                nbytes).2) :: s.heap.blocks⟩ s.buf,
               buf := s.heap.fresh, buf_size := nbytes, errs := s.errs,
               compressor := p.compname }) ∨
       (flags &&& H5Z_FLAG_REVERSE ≠ 0 ∧
        (B.blosc_cbuffer_sizes src).2.1 = nbytes ∧
        0 < (B.blosc_decompress src (freshBlock (B.blosc_cbuffer_sizes src).1 junk)
            (B.blosc_cbuffer_sizes src).1).1 ∧
        (B.blosc_decompress src (freshBlock (B.blosc_cbuffer_sizes src).1 junk)
            (B.blosc_cbuffer_sizes src).1).1 ≤ ((B.blosc_cbuffer_sizes src).1 : Int) ∧
        (r : Int) = (B.blosc_decompress src (freshBlock (B.blosc_cbuffer_sizes src).1 junk)
            (B.blosc_cbuffer_sizes src).1).1 ∧
        s' = { heap := Heap.free ⟨(s.heap.fresh, (B.blosc_decompress src
                (freshBlock (B.blosc_cbuffer_sizes src).1 junk)
                (B.blosc_cbuffer_sizes src).1).2) :: s.heap.blocks⟩ s.buf,
               buf := s.heap.fresh, buf_size := (B.blosc_cbuffer_sizes src).1,
               errs := s.errs, compressor := s.compressor })) := by
  by_cases ha : entry_asserts cd_values nbytes s
  swap
  · rw [blosc_filter_abort B ok junk flags cd_values nbytes s ha] at h; cases h
  cases hd : decode_params B cd_values with
  | error d =>
    rw [blosc_filter_decode_error B ok junk flags cd_values nbytes s d ha hd] at h
    cases h; omega
  | ok p =>
    by_cases hf : flags &&& H5Z_FLAG_REVERSE = 0
    · rw [blosc_filter_forward B ok junk flags cd_values nbytes s p ha hd hf] at h
      cases ok with
      | false => rw [compress_path_nomem] at h; cases h; omega
      | true =>
        cases hsrc : s.heap.lookup s.buf with
        | none => rw [compress_path_dangling _ _ _ _ _ _ hsrc] at h; cases h
        | some src =>
          rw [compress_path_eq _ _ _ _ _ _ src hsrc] at h
          split at h
          · cases h; omega
          · split at h
            · cases h; omega
            · split at h
              · cases h
              · rename_i h0 h1 h2
                injection h with h
                injection h with h3 h4
                refine ⟨src, p, rfl, rfl, ha, rfl, Or.inl ⟨hf, by omega, by omega, by omega,
                  h4.symm⟩⟩
    · rw [blosc_filter_reverse B ok junk flags cd_values nbytes s p ha hd hf] at h
      cases hsrc : s.heap.lookup s.buf with
      | none => rw [decompress_path_dangling _ _ _ _ _ hsrc] at h; cases h
      | some src =>
        cases ok with
        | false =>
          rw [decompress_path_nomem _ _ _ _ src hsrc] at h
          split at h
          · cases h
          · cases h; omega
        | true =>
          rw [decompress_path_eq _ _ _ _ src hsrc] at h
          split at h
          · cases h
          · split at h
            · cases h; omega
            · split at h
              · cases h
              · rename_i h0 h1 h2
                injection h with h
                injection h with h3 h4
                refine ⟨src, p, rfl, rfl, ha, rfl, Or.inr ⟨hf, by omega, by omega, by omega,
                  by omega, h4.symm⟩⟩

/-- Counterexample to C3 as stated: the forward call on eight equal bytes succeeds
and returns 3, the number of bytes the backend wrote, while `*buf_size` is left
at 8, the size of the buffer that was allocated (`outbuf_size = nbytes`). -/
theorem blosc_filter_buf_size_not_returned :
    blosc_filter runBackend true [] 0 [2, 2, 1, 8] 8 chunk8 =
      .ret (3, ⟨⟨[(2, [8, 3, 7, 0, 0, 0, 0, 0])]⟩, 2, 8, [], "blosclz"⟩) ∧
    (⟨⟨[(2, [8, 3, 7, 0, 0, 0, 0, 0])]⟩, 2, 8, [], "blosclz"⟩ : State).buf_size ≠ 3 := by
  decide

/-- C3, amended (success postcondition of `blosc_filter`).  For every call that
returns `r > 0`, in either direction: `*buf` is replaced by a block that was
not live before the call; the value returned is the status of the backend,
`0 < r <= *buf_size`; and `*buf_size` is the size with which the output buffer
was allocated, which is `nbytes` in the forward direction and the uncompressed
size read from the stream header in the reverse direction.  The new buffer
holds what the backend wrote into it. -/
theorem blosc_filter_success_postcondition (B : Blosc) (ok : Bool) (junk : List Byte)
    (flags : Nat) (cd_values : List Nat) (nbytes : Nat) (s s' : State) (r : Nat)
    (h : blosc_filter B ok junk flags cd_values nbytes s = .ret (r, s')) (hr : 0 < r) :
    s'.buf ≠ s.buf ∧ s.heap.lookup s'.buf = none ∧ r ≤ s'.buf_size ∧
    ∃ src p, s.heap.lookup s.buf = some src ∧ decode_params B cd_values = .ok p ∧
      (flags &&& H5Z_FLAG_REVERSE = 0 →
        s'.buf_size = nbytes ∧
        s'.heap.lookup s'.buf = some (B.blosc_compress p.compname p.clevel p.doshuffle
          (cd_values.getD 2 0) nbytes src (freshBlock nbytes junk) nbytes).2 ∧
        (r : Int) = (B.blosc_compress p.compname p.clevel p.doshuffle
          (cd_values.getD 2 0) nbytes src (freshBlock nbytes junk) nbytes).1) ∧
      (flags &&& H5Z_FLAG_REVERSE ≠ 0 →
        s'.buf_size = (B.blosc_cbuffer_sizes src).1 ∧
        s'.heap.lookup s'.buf = some (B.blosc_decompress src
          (freshBlock (B.blosc_cbuffer_sizes src).1 junk) (B.blosc_cbuffer_sizes src).1).2 ∧
        (r : Int) = (B.blosc_decompress src
          (freshBlock (B.blosc_cbuffer_sizes src).1 junk) (B.blosc_cbuffer_sizes src).1).1) := by
  obtain ⟨src, p, hsrc, hd, ha, hok, hcase⟩ :=
    blosc_filter_success B ok junk flags cd_values nbytes s s' r h hr
  have hne : s.heap.fresh ≠ s.buf :=
    fun e => s.heap.ne_fresh_of_lookup s.buf src hsrc e.symm
  rcases hcase with ⟨hf, h1, h2, h3, hs⟩ | ⟨hf, h0, h1, h2, h3, hs⟩
  · subst hs
    refine ⟨hne, s.heap.lookup_fresh, ?_, src, p, hsrc, hd, fun _ => ⟨rfl, ?_, h3⟩,
      fun hf2 => absurd hf hf2⟩
    · simp only; omega
    · simp only
      rw [Heap.lookup_free_ne _ _ _ hne, Heap.lookup_alloc_self]
  · subst hs
    refine ⟨hne, s.heap.lookup_fresh, ?_, src, p, hsrc, hd, fun hf2 => absurd hf2 hf,
      fun _ => ⟨rfl, ?_, h3⟩⟩
    · simp only; omega
    · simp only
      rw [Heap.lookup_free_ne _ _ _ hne, Heap.lookup_alloc_self]

/-- Witness of C3 amended: the forward call on eight equal bytes. -/
theorem blosc_filter_success_postcondition_witness :
    blosc_filter runBackend true [] 0 [2, 2, 1, 8] 8 chunk8 =
      .ret (3, ⟨⟨[(2, [8, 3, 7, 0, 0, 0, 0, 0])]⟩, 2, 8, [], "blosclz"⟩) ∧
    2 ≠ chunk8.buf ∧ chunk8.heap.lookup 2 = none ∧ 3 ≤ 8 :=
  have w := blosc_filter_success_postcondition runBackend true [] 0 [2, 2, 1, 8] 8 chunk8
    ⟨⟨[(2, [8, 3, 7, 0, 0, 0, 0, 0])]⟩, 2, 8, [], "blosclz"⟩ 3 (by decide) (by decide)
  ⟨by decide, w.1, w.2.1, w.2.2.1⟩

/-- C4 (soft versus hard outcome on compression).  In the forward direction, for a
call that passes the entry `assert`s with slots that decode, a live `*buf` and
a successful allocation, the status `st` of `blosc_compress` decides the
outcome: `st = 0` returns 0 and pushes no diagnostic; `st < 0` returns 0 and
pushes the diagnostic "Blosc compression error"; `1 <= st <= nbytes` returns
`st` and pushes nothing; and the call returns a value `r > 0` only when
`1 <= st <= nbytes`, and then `r = st`. -/
theorem blosc_filter_soft_versus_hard (B : Blosc) (junk : List Byte) (flags : Nat)
    (cd_values : List Nat) (nbytes : Nat) (s : State) (p : Params) (src : List Byte)
    (ha : entry_asserts cd_values nbytes s)
    (hd : decode_params B cd_values = .ok p)
    (hf : flags &&& H5Z_FLAG_REVERSE = 0)
    (hsrc : s.heap.lookup s.buf = some src) :
    ((B.blosc_compress p.compname p.clevel p.doshuffle (cd_values.getD 2 0) nbytes src
        (freshBlock nbytes junk) nbytes).1 = 0 →
      ∃ s', blosc_filter B true junk flags cd_values nbytes s = .ret (0, s') ∧
        s'.errs = s.errs) ∧
    ((B.blosc_compress p.compname p.clevel p.doshuffle (cd_values.getD 2 0) nbytes src
        (freshBlock nbytes junk) nbytes).1 < 0 →
      ∃ s', blosc_filter B true junk flags cd_values nbytes s = .ret (0, s') ∧
        s'.errs = s.errs ++ [.compression_error]) ∧
    (1 ≤ (B.blosc_compress p.compname p.clevel p.doshuffle (cd_values.getD 2 0) nbytes src
        (freshBlock nbytes junk) nbytes).1 →
      (B.blosc_compress p.compname p.clevel p.doshuffle (cd_values.getD 2 0) nbytes src
        (freshBlock nbytes junk) nbytes).1 ≤ (nbytes : Int) →
      ∃ s', blosc_filter B true junk flags cd_values nbytes s =
          .ret ((B.blosc_compress p.compname p.clevel p.doshuffle (cd_values.getD 2 0)
            nbytes src (freshBlock nbytes junk) nbytes).1.toNat, s') ∧
        s'.errs = s.errs) ∧
    (∀ r s', blosc_filter B true junk flags cd_values nbytes s = .ret (r, s') → 0 < r →
      1 ≤ (B.blosc_compress p.compname p.clevel p.doshuffle (cd_values.getD 2 0) nbytes
        src (freshBlock nbytes junk) nbytes).1 ∧
      (B.blosc_compress p.compname p.clevel p.doshuffle (cd_values.getD 2 0) nbytes src
        (freshBlock nbytes junk) nbytes).1 ≤ (nbytes : Int) ∧
      (r : Int) = (B.blosc_compress p.compname p.clevel p.doshuffle (cd_values.getD 2 0)
        nbytes src (freshBlock nbytes junk) nbytes).1) := by
  rw [blosc_filter_forward B true junk flags cd_values nbytes s p ha hd hf,
    compress_path_eq _ _ _ _ _ _ src hsrc]
  generalize (B.blosc_compress p.compname p.clevel p.doshuffle (cd_values.getD 2 0) nbytes
    src (freshBlock nbytes junk) nbytes) = c
  refine ⟨?_, ?_, ?_, ?_⟩
  · intro h0
    rw [if_pos h0]
    exact ⟨_, rfl, rfl⟩
  · intro h0
    have h1 : ¬ c.1 = 0 := by omega
    rw [if_neg h1, if_pos h0]
    exact ⟨_, rfl, rfl⟩
  · intro h0 h2
    have h1 : ¬ c.1 = 0 := by omega
    have h3 : ¬ c.1 < 0 := by omega
    rw [if_neg h1, if_neg h3, if_neg (not_not.mpr h2)]
    exact ⟨_, rfl, rfl⟩
  · intro r s' h hr
    split at h
    · cases h; omega
    · split at h
      · cases h; omega
      · split at h
        · cases h
        · rename_i h0 h1 h2
          injection h with h
          injection h with h3 h4
          refine ⟨by omega, by omega, by omega⟩

/-- Witness of C4: four distinct bytes do not fit, the soft outcome. -/
theorem blosc_filter_soft_versus_hard_witness :
    ∃ s', blosc_filter runBackend true [] 0 [2, 2, 4, 4] 4 chunk4 = .ret (0, s') ∧
      s'.errs = chunk4.errs :=
  (blosc_filter_soft_versus_hard runBackend [] 0 [2, 2, 4, 4] 4 chunk4
    ⟨5, 1, "blosclz"⟩ [1, 2, 3, 4] (by decide) (by rfl) (by decide) (by decide)).1
    (by decide)

/-- The array `cd_values` of `blosc_set_local` as handed to `H5Pmodify_filter`, for
a stored block `vs` of at most 8 values: slots 0-3 are the four values set,
the slots from 4 on are the stored ones. -/
theorem param_block_eq (vs : List Nat) (hn : vs.length ≤ 8) (a b c d : Nat) :
    ((((((vs.take 8).take ([0, 0, 0, 0, 0, 0, 0, 0] : List Nat).length ++
        ([0, 0, 0, 0, 0, 0, 0, 0] : List Nat).drop (min 8 vs.length)).set 0 a).set 1 b).set 2
          c).set 3 d).take (if vs.length < 4 then 4 else vs.length) =
      [a, b, c, d] ++ vs.drop 4 := by
  match vs, hn with
  | [], _ => rfl
  | [_], _ => rfl
  | [_, _], _ => rfl
  | [_, _, _], _ => rfl
  | [_, _, _, _], _ => rfl
  | [_, _, _, _, _], _ => rfl
  | [_, _, _, _, _, _], _ => rfl
  | [_, _, _, _, _, _, _], _ => rfl
  | [_, _, _, _, _, _, _, _], _ => rfl
  | _ :: _ :: _ :: _ :: _ :: _ :: _ :: _ :: _ :: _, h => simp at h

theorem chunksize_step_eq (c d : Nat) : chunksize_step c d = (c * d) % 2 ^ 32 := by
  unfold chunksize_step toUnsigned
  have h1 : (c * (d % 2 ^ 64)) % 2 ^ 64 = (c * d) % 2 ^ 64 := by
    rw [Nat.mul_mod, Nat.mod_mod, ← Nat.mul_mod]
  rw [h1]
  exact Nat.mod_mod_of_dvd _ (by norm_num)

/-- The loop of lines 141-144 computes the product of the type size and the
extents, reduced to 32 bits. -/
theorem foldl_chunksize_step (dims : List Nat) (t : Nat) :
    dims.foldl chunksize_step (t % 2 ^ 32) = (t * dims.prod) % 2 ^ 32 := by
  induction dims generalizing t with
  | nil => simp
  | cons d ds ih =>
    simp only [List.foldl_cons, List.prod_cons, chunksize_step_eq]
    rw [ih, Nat.mul_assoc, Nat.mod_mul_mod]

theorem chunk_size_eq (w : Nat) (dims : List Nat) (h : dims.length ≤ 32) :
    chunk_size (toUnsigned w) (dims.length : Int) (dims.take 32) =
      (w * dims.prod) % 2 ^ 32 := by
  unfold chunk_size toUnsigned
  rw [List.take_of_length_le h, Int.toNat_ofNat, List.take_length, foldl_chunksize_step]

/-- The element size `blosc_set_local` stores in slot 2. -/
theorem blosc_set_local_ok (dcpl : Dcpl) (type : H5Type) (f : Filter) (dims : List Nat)
    (hf : dcpl.filter = some f) (hc : dcpl.chunk = some dims)
    (hrank : dims.length ≤ 32) (hn : f.cd_values.length ≤ 8)
    (hsize : toUnsigned (H5Tget_size type) ≠ 0)
    (hclass : H5Tget_class type ≠ .H5T_NO_CLASS) :
    blosc_set_local true dcpl type =
      .ret (1, { dcpl with filter := some ⟨f.flags,
        [FILTER_BLOSC_VERSION, BLOSC_VERSION_FORMAT,
          (if base_type_size type (H5Tget_class type) (toUnsigned (H5Tget_size type)) >
              BLOSC_MAX_TYPESIZE then 1
           else base_type_size type (H5Tget_class type) (toUnsigned (H5Tget_size type))),
          (H5Tget_size type * dims.prod) % 2 ^ 32] ++ f.cd_values.drop 4⟩ }, []) := by
  have h1 : ¬ ((dims.length : Int) < 0) := by omega
  have h2 : ¬ ((dims.length : Int) > 32) := by omega
  have h3 : ¬ ((if f.cd_values.length < 4 then 4 else f.cd_values.length) > 8) := by
    split <;> omega
  simp only [blosc_set_local, H5Pget_filter_by_id, hf, H5Pget_chunk, hc, h1, h2, hsize,
    hclass, if_false, h3, H5Pmodify_filter, param_block_eq _ hn, chunk_size_eq _ _ hrank]
  rfl

/-- The failing returns of `blosc_set_local`: status -1, property list untouched. -/
theorem blosc_set_local_fail (ok : Bool) (dcpl : Dcpl) (type : H5Type)
    (h : dcpl.filter = none ∨ dcpl.chunk = none ∨
      (∃ dims, dcpl.chunk = some dims ∧ 32 < dims.length) ∨
      toUnsigned (H5Tget_size type) = 0 ∨ H5Tget_class type = .H5T_NO_CLASS ∨
      (ok = false ∧ ∀ f, dcpl.filter = some f → f.cd_values.length ≤ 8)) :
    ∃ diags, blosc_set_local ok dcpl type = .ret (-1, dcpl, diags) := by
  cases hf : dcpl.filter with
  | none => exact ⟨[], by simp [blosc_set_local, H5Pget_filter_by_id, hf]⟩
  | some f =>
    cases hc : dcpl.chunk with
    | none => exact ⟨[], by simp [blosc_set_local, H5Pget_filter_by_id, hf, H5Pget_chunk, hc]⟩
    | some dims =>
      by_cases hrank : 32 < dims.length
      · refine ⟨[.chunk_rank_exceeds_limit], ?_⟩
        have h1 : ¬ ((dims.length : Int) < 0) := by omega
        have h2 : (dims.length : Int) > 32 := by omega
        simp [blosc_set_local, H5Pget_filter_by_id, hf, H5Pget_chunk, hc, h1, h2]
      · have h1 : ¬ ((dims.length : Int) < 0) := by omega
        have h2 : ¬ ((dims.length : Int) > 32) := by omega
        by_cases hsize : toUnsigned (H5Tget_size type) = 0
        · exact ⟨[], by
            simp [blosc_set_local, H5Pget_filter_by_id, hf, H5Pget_chunk, hc, h1, h2, hsize]⟩
        · by_cases hclass : H5Tget_class type = .H5T_NO_CLASS
          · exact ⟨[], by
              simp [blosc_set_local, H5Pget_filter_by_id, hf, H5Pget_chunk, hc, h1, h2,
                hsize, hclass]⟩
          · rcases h with h | h | ⟨d, h, h'⟩ | h | h | ⟨h, hn⟩
            · rw [hf] at h; cases h
            · rw [hc] at h; cases h
            · rw [hc] at h; cases h; exact absurd h' hrank
            · exact absurd h hsize
            · exact absurd h hclass
            · have hn := hn f hf
              have h3 : ¬ ((if f.cd_values.length < 4 then 4 else f.cd_values.length) > 8) := by
                split <;> omega
              subst h
              refine ⟨[], ?_⟩
              simp only [blosc_set_local, H5Pget_filter_by_id, hf, H5Pget_chunk, hc, h1, h2,
                hsize, hclass, if_false, h3, H5Pmodify_filter]
              rfl

/-- A successful setup: what had to hold. -/
theorem blosc_set_local_success (ok : Bool) (dcpl dcpl' : Dcpl) (type : H5Type)
    (diags : List Diag)
    (h : blosc_set_local ok dcpl type = .ret (1, dcpl', diags)) :
    ∃ f dims, dcpl.filter = some f ∧ dcpl.chunk = some dims ∧ dims.length ≤ 32 ∧
      f.cd_values.length ≤ 8 ∧ toUnsigned (H5Tget_size type) ≠ 0 ∧
      H5Tget_class type ≠ .H5T_NO_CLASS ∧ ok = true := by
  have hne : ∀ (d : Dcpl) (ds : List Diag),
      (Result.ret ((-1 : Int), d, ds) : Result (Int × Dcpl × List Diag)) ≠
        .ret (1, dcpl', diags) := by
    intro d ds e
    injection e with e
    injection e with e _
    omega
  have fails : (dcpl.filter = none ∨ dcpl.chunk = none ∨
      (∃ dims, dcpl.chunk = some dims ∧ 32 < dims.length) ∨
      toUnsigned (H5Tget_size type) = 0 ∨ H5Tget_class type = .H5T_NO_CLASS ∨
      (ok = false ∧ ∀ f, dcpl.filter = some f → f.cd_values.length ≤ 8)) → False := by
    intro hc
    obtain ⟨ds, hd⟩ := blosc_set_local_fail ok dcpl type hc
    rw [hd] at h
    exact hne _ _ h
  cases hf : dcpl.filter with
  | none => exact (fails (Or.inl hf)).elim
  | some f =>
    cases hc : dcpl.chunk with
    | none => exact (fails (Or.inr (Or.inl hc))).elim
    | some dims =>
      have hrank : dims.length ≤ 32 := by
        by_contra hr
        exact fails (Or.inr (Or.inr (Or.inl ⟨dims, hc, by omega⟩)))
      have hsize : toUnsigned (H5Tget_size type) ≠ 0 :=
        fun e => fails (Or.inr (Or.inr (Or.inr (Or.inl e))))
      have hclass : H5Tget_class type ≠ .H5T_NO_CLASS :=
        fun e => fails (Or.inr (Or.inr (Or.inr (Or.inr (Or.inl e)))))
      have hn : f.cd_values.length ≤ 8 := by
        by_contra hn
        have h1 : ¬ ((dims.length : Int) < 0) := by omega
        have h2 : ¬ ((dims.length : Int) > 32) := by omega
        have h3 : (if f.cd_values.length < 4 then 4 else f.cd_values.length) > 8 := by
          split <;> omega
        simp [blosc_set_local, H5Pget_filter_by_id, hf, H5Pget_chunk, hc, h1, h2,
          hsize, hclass, h3] at h
      have hok : ok = true := by
        cases ok with
        | true => rfl
        | false =>
          exact (fails (Or.inr (Or.inr (Or.inr (Or.inr (Or.inr
            ⟨rfl, fun g hg => by rw [hf] at hg; cases hg; exact hn⟩)))))).elim
      exact ⟨f, dims, rfl, rfl, hrank, hn, hsize, hclass, hok⟩

/-! ## The claims about `blosc_set_local` -/

/-- C6 (clamping in `blosc_set_local`).  For every element type that is not of
class `H5T_ARRAY`, of byte width `s`, a successful setup (status 1) stores in
slot 2 the value 1 when `BLOSC_MAX_TYPESIZE + 1 <= s < 2^31`, and the value
`s` when `1 <= s <= BLOSC_MAX_TYPESIZE`. -/
theorem blosc_set_local_clamp (ok : Bool) (dcpl dcpl' : Dcpl) (type : H5Type)
    (diags : List Diag)
    (hna : H5Tget_class type ≠ .H5T_ARRAY)
    (h : blosc_set_local ok dcpl type = .ret (1, dcpl', diags)) :
    (BLOSC_MAX_TYPESIZE + 1 ≤ H5Tget_size type → H5Tget_size type < 2 ^ 31 →
      dcpl'.slot 2 = some 1) ∧
    (1 ≤ H5Tget_size type → H5Tget_size type ≤ BLOSC_MAX_TYPESIZE →
      dcpl'.slot 2 = some (H5Tget_size type)) := by
  obtain ⟨f, dims, hf, hc, hrank, hn, hsize, hclass, hok⟩ :=
    blosc_set_local_success ok dcpl dcpl' type diags h
  subst hok
  rw [blosc_set_local_ok dcpl type f dims hf hc hrank hn hsize hclass] at h
  injection h with h
  injection h with _ h
  injection h with h _
  subst h
  simp only [Dcpl.slot, Option.map_some', List.cons_append, List.getD_cons_succ,
    List.getD_cons_zero, base_type_size, if_neg hna, toUnsigned, BLOSC_MAX_TYPESIZE]
  constructor
  · intro h1 h2
    have : H5Tget_size type % 2 ^ 32 = H5Tget_size type := Nat.mod_eq_of_lt (by omega)
    rw [this, if_pos (by omega)]
  · intro h1 h2
    have : H5Tget_size type % 2 ^ 32 = H5Tget_size type := Nat.mod_eq_of_lt (by omega)
    rw [this, if_neg (by omega)]

/-- Witness of C6: the two runs of `test_compound.c`, a compound of 256 one-byte
fields (slot 2 = 1) and a compound of 255 one-byte fields (slot 2 = 255), with
chunks of 1000 elements. -/
theorem blosc_set_local_clamp_witness :
    blosc_set_local true ⟨some ⟨1, []⟩, some [1000]⟩ (.base .H5T_COMPOUND 256) =
      .ret (1, ⟨some ⟨1, [2, 2, 1, 256000]⟩, some [1000]⟩, []) ∧
    Dcpl.slot ⟨some ⟨1, [2, 2, 1, 256000]⟩, some [1000]⟩ 2 = some 1 ∧
    blosc_set_local true ⟨some ⟨1, []⟩, some [1000]⟩ (.base .H5T_COMPOUND 255) =
      .ret (1, ⟨some ⟨1, [2, 2, 255, 255000]⟩, some [1000]⟩, []) ∧
    Dcpl.slot ⟨some ⟨1, [2, 2, 255, 255000]⟩, some [1000]⟩ 2 = some 255 :=
  ⟨by decide,
   (blosc_set_local_clamp true ⟨some ⟨1, []⟩, some [1000]⟩
      ⟨some ⟨1, [2, 2, 1, 256000]⟩, some [1000]⟩ (.base .H5T_COMPOUND 256) []
      (by decide) (by decide)).1 (by decide) (by decide),
   by decide,
   (blosc_set_local_clamp true ⟨some ⟨1, []⟩, some [1000]⟩
      ⟨some ⟨1, [2, 2, 255, 255000]⟩, some [1000]⟩ (.base .H5T_COMPOUND 255) []
      (by decide) (by decide)).2 (by decide) (by decide)⟩

/-- C7 (array-base resolution in `blosc_set_local`).  For every element type that
is an array, of extents `N`, of a base type `T` whose byte width is at most
`BLOSC_MAX_TYPESIZE`, a successful setup stores in slot 2 the byte width of
`T`; this is not the width `N.prod * sizeof(T)` of the array type when the
array has more than one element. -/
theorem blosc_set_local_array_base (ok : Bool) (dcpl dcpl' : Dcpl) (T : H5Type)
    (N : List Nat) (diags : List Diag)
    (hT : H5Tget_size T ≤ BLOSC_MAX_TYPESIZE)
    (h : blosc_set_local ok dcpl (H5Tarray_create T N) = .ret (1, dcpl', diags)) :
    dcpl'.slot 2 = some (H5Tget_size T) ∧
    (1 < N.prod → dcpl'.slot 2 ≠ some (H5Tget_size T * N.prod)) := by
  obtain ⟨f, dims, hf, hc, hrank, hn, hsize, hclass, hok⟩ :=
    blosc_set_local_success ok dcpl dcpl' _ diags h
  subst hok
  rw [blosc_set_local_ok dcpl _ f dims hf hc hrank hn hsize hclass] at h
  injection h with h
  injection h with _ h
  injection h with h _
  subst h
  simp only [BLOSC_MAX_TYPESIZE] at hT
  have hmod : H5Tget_size T % 2 ^ 32 = H5Tget_size T := Nat.mod_eq_of_lt (by omega)
  have hslot : Dcpl.slot { dcpl with filter := some ⟨f.flags,
        [FILTER_BLOSC_VERSION, BLOSC_VERSION_FORMAT,
          (if base_type_size (H5Tarray_create T N) (H5Tget_class (H5Tarray_create T N))
              (toUnsigned (H5Tget_size (H5Tarray_create T N))) > BLOSC_MAX_TYPESIZE then 1
           else base_type_size (H5Tarray_create T N) (H5Tget_class (H5Tarray_create T N))
              (toUnsigned (H5Tget_size (H5Tarray_create T N)))),
          (H5Tget_size (H5Tarray_create T N) * dims.prod) % 2 ^ 32] ++
            f.cd_values.drop 4⟩ } 2 = some (H5Tget_size T) := by
    simp only [Dcpl.slot, Option.map_some', List.cons_append, List.getD_cons_succ,
      List.getD_cons_zero, base_type_size, H5Tarray_create, H5Tget_class, H5Tget_super,
      if_true, toUnsigned, BLOSC_MAX_TYPESIZE, hmod]
    rw [if_neg (by omega)]
  refine ⟨hslot, ?_⟩
  intro hN e
  rw [hslot] at e
  injection e with e
  have h0 : H5Tget_size T ≠ 0 := by
    intro h0
    apply hsize
    have hs : H5Tget_size (H5Tarray_create T N) = H5Tget_size T * N.prod := rfl
    rw [hs, h0]
    simp [toUnsigned]
  have hlt : H5Tget_size T * 1 < H5Tget_size T * N.prod :=
    Nat.mul_lt_mul_of_pos_left hN (Nat.pos_of_ne_zero h0)
  omega

/-- Witness of C7: `test_array.c`, a `[100,10]` array of 4-byte floats in chunks of
10 elements, gives slot 2 = 4. -/
theorem blosc_set_local_array_base_witness :
    blosc_set_local true ⟨some ⟨1, []⟩, some [10]⟩
        (H5Tarray_create (.base .H5T_FLOAT 4) [100, 10]) =
      .ret (1, ⟨some ⟨1, [2, 2, 4, 40000]⟩, some [10]⟩, []) ∧
    Dcpl.slot ⟨some ⟨1, [2, 2, 4, 40000]⟩, some [10]⟩ 2 = some 4 :=
  ⟨by decide,
   (blosc_set_local_array_base true ⟨some ⟨1, []⟩, some [10]⟩
      ⟨some ⟨1, [2, 2, 4, 40000]⟩, some [10]⟩ (.base .H5T_FLOAT 4) [100, 10] []
      (by decide) (by decide)).1⟩

/-- Counterexample to C8 as stated: an 8-byte type in chunks of 65536 x 65536
elements.  The setup succeeds and stores 0 in slot 3, not the product
`8 * 65536 * 65536 = 2^35`: `chunksize` is an `unsigned int`. -/
theorem blosc_set_local_chunk_size_wraps :
    blosc_set_local true ⟨some ⟨1, []⟩, some [65536, 65536]⟩ (.base .H5T_FLOAT 8) =
      .ret (1, ⟨some ⟨1, [2, 2, 8, 0]⟩, some [65536, 65536]⟩, []) ∧
    Dcpl.slot ⟨some ⟨1, [2, 2, 8, 0]⟩, some [65536, 65536]⟩ 3 ≠
      some (H5Tget_size (.base .H5T_FLOAT 8) * 65536 * 65536) := by
  decide

/-- C8, amended (chunk byte size in `blosc_set_local`).  For every element type of
byte width `w` (the full width of the declared type) and every chunk shape
`dims`, a successful setup stores in slot 3 the product `w * dims.prod` reduced
modulo `2^32`; so it stores the product itself whenever that is below `2^32`.
With default options (an empty block) on a 4-byte float type and the chunk
shape 1 x 100 x 100 the block written is
`[FILTER_BLOSC_VERSION, BLOSC_VERSION_FORMAT, 4, 40000]`. -/
theorem blosc_set_local_chunk_bytes (ok : Bool) (dcpl dcpl' : Dcpl) (type : H5Type)
    (dims : List Nat) (diags : List Diag)
    (hc : dcpl.chunk = some dims)
    (h : blosc_set_local ok dcpl type = .ret (1, dcpl', diags)) :
    dcpl'.slot 3 = some ((H5Tget_size type * dims.prod) % 2 ^ 32) ∧
    (H5Tget_size type * dims.prod < 2 ^ 32 →
      dcpl'.slot 3 = some (H5Tget_size type * dims.prod)) ∧
    blosc_set_local true ⟨some ⟨1, []⟩, some [1, 100, 100]⟩ (.base .H5T_FLOAT 4) =
      .ret (1, ⟨some ⟨1, [FILTER_BLOSC_VERSION, BLOSC_VERSION_FORMAT, 4, 40000]⟩,
        some [1, 100, 100]⟩, []) := by
  obtain ⟨f, dims', hf, hc', hrank, hn, hsize, hclass, hok⟩ :=
    blosc_set_local_success ok dcpl dcpl' type diags h
  subst hok
  rw [hc] at hc'
  injection hc' with hc'
  subst hc'
  rw [blosc_set_local_ok dcpl type f dims hf hc hrank hn hsize hclass] at h
  injection h with h
  injection h with _ h
  injection h with h _
  subst h
  have hslot : Dcpl.slot { dcpl with filter := some ⟨f.flags,
        [FILTER_BLOSC_VERSION, BLOSC_VERSION_FORMAT,
          (if base_type_size type (H5Tget_class type) (toUnsigned (H5Tget_size type)) >
              BLOSC_MAX_TYPESIZE then 1
           else base_type_size type (H5Tget_class type) (toUnsigned (H5Tget_size type))),
          (H5Tget_size type * dims.prod) % 2 ^ 32] ++ f.cd_values.drop 4⟩ } 3 =
      some ((H5Tget_size type * dims.prod) % 2 ^ 32) := rfl
  refine ⟨hslot, ?_, by decide⟩
  intro hlt
  rw [hslot, Nat.mod_eq_of_lt hlt]

/-- Witness of C8 amended: `example.c`, 4-byte floats in chunks of 1 x 100 x 100. -/
theorem blosc_set_local_chunk_bytes_witness :
    blosc_set_local true ⟨some ⟨1, []⟩, some [1, 100, 100]⟩ (.base .H5T_FLOAT 4) =
      .ret (1, ⟨some ⟨1, [2, 2, 4, 40000]⟩, some [1, 100, 100]⟩, []) ∧
    Dcpl.slot ⟨some ⟨1, [2, 2, 4, 40000]⟩, some [1, 100, 100]⟩ 3 = some 40000 :=
  ⟨by decide,
   (blosc_set_local_chunk_bytes true ⟨some ⟨1, []⟩, some [1, 100, 100]⟩
      ⟨some ⟨1, [2, 2, 4, 40000]⟩, some [1, 100, 100]⟩ (.base .H5T_FLOAT 4) [1, 100, 100] []
      rfl (by decide)).2.1 (by decide)⟩

/-- Counterexample to C9 as stated, at two inputs on which none of the listed
failures occurs and yet no positive status is returned.  (1) A type of `2^32`
bytes: its size is not 0 and its class is known, but the setup returns -1,
because the size is held in an `unsigned int`, where it is 0.  (2) A stored
block of 9 slots: `H5Pget_filter_by_id` reports 9 values, and line 152 makes
`H5Pmodify_filter` read 9 values from the 8-element array `cd_values`. -/
theorem blosc_set_local_no_positive_status :
    (blosc_set_local true ⟨some ⟨1, []⟩, some [10]⟩ (.base .H5T_OPAQUE 4294967296) =
      .ret (-1, ⟨some ⟨1, []⟩, some [10]⟩, []) ∧
    H5Tget_size (.base .H5T_OPAQUE 4294967296) ≠ 0 ∧
    H5Tget_class (.base .H5T_OPAQUE 4294967296) ≠ .H5T_NO_CLASS) ∧
    blosc_set_local true ⟨some ⟨1, [0, 0, 0, 0, 5, 1, 0, 0, 0]⟩, some [10]⟩
      (.base .H5T_FLOAT 4) = .undefined := by
  decide

/-- C9, amended (failure atomicity of `blosc_set_local`).  For a persisted block of
at most 8 slots and an element type whose byte width is below `2^32`:
whenever `H5Tget_size` gives 0 or the class is `H5T_NO_CLASS`, the chunk rank
cannot be read or exceeds 32, the filter parameters cannot be read, or
`H5Pmodify_filter` fails, `blosc_set_local` returns -1 and the property list
is unchanged; in every other case it returns 1. -/
theorem blosc_set_local_failure_atomic (ok : Bool) (dcpl : Dcpl) (type : H5Type)
    (hn : ∀ f, dcpl.filter = some f → f.cd_values.length ≤ 8)
    (hw : H5Tget_size type < 2 ^ 32) :
    ((H5Tget_size type = 0 ∨ H5Tget_class type = .H5T_NO_CLASS ∨ dcpl.chunk = none ∨
        (∃ dims, dcpl.chunk = some dims ∧ 32 < dims.length) ∨ dcpl.filter = none ∨
        ok = false) →
      ∃ diags, blosc_set_local ok dcpl type = .ret (-1, dcpl, diags)) ∧
    (¬ (H5Tget_size type = 0 ∨ H5Tget_class type = .H5T_NO_CLASS ∨ dcpl.chunk = none ∨
        (∃ dims, dcpl.chunk = some dims ∧ 32 < dims.length) ∨ dcpl.filter = none ∨
        ok = false) →
      ∃ dcpl', blosc_set_local ok dcpl type = .ret (1, dcpl', [])) := by
  have hmod : toUnsigned (H5Tget_size type) = H5Tget_size type := Nat.mod_eq_of_lt hw
  constructor
  · intro h
    apply blosc_set_local_fail
    rw [hmod]
    rcases h with h | h | h | h | h | h
    · exact Or.inr (Or.inr (Or.inr (Or.inl h)))
    · exact Or.inr (Or.inr (Or.inr (Or.inr (Or.inl h))))
    · exact Or.inr (Or.inl h)
    · exact Or.inr (Or.inr (Or.inl h))
    · exact Or.inl h
    · exact Or.inr (Or.inr (Or.inr (Or.inr (Or.inr ⟨h, hn⟩))))
  · intro h
    simp only [not_or] at h
    obtain ⟨h1, h2, h3, h4, h5, h6⟩ := h
    cases hf : dcpl.filter with
    | none => exact absurd hf h5
    | some f =>
      cases hc : dcpl.chunk with
      | none => exact absurd hc h3
      | some dims =>
        have hrank : dims.length ≤ 32 := by
          by_contra hr
          exact h4 ⟨dims, hc, by omega⟩
        have hok : ok = true := by
          cases ok with
          | true => rfl
          | false => exact absurd rfl h6
        subst hok
        rw [blosc_set_local_ok dcpl type f dims hf hc hrank (hn f hf) (by rw [hmod]; exact h1) h2]
        exact ⟨_, rfl⟩

/-- Witness of C9 amended: a chunk shape of rank 33 is refused. -/
theorem blosc_set_local_failure_atomic_witness :
    ∃ diags, blosc_set_local true ⟨some ⟨1, []⟩, some (List.replicate 33 1)⟩
      (.base .H5T_FLOAT 4) = .ret (-1, ⟨some ⟨1, []⟩, some (List.replicate 33 1)⟩, diags) :=
  (blosc_set_local_failure_atomic true ⟨some ⟨1, []⟩, some (List.replicate 33 1)⟩
    (.base .H5T_FLOAT 4) (by intro f hf; cases hf; decide) (by decide)).1
    (Or.inr (Or.inr (Or.inr (Or.inl ⟨_, rfl, by decide⟩))))

/-- C10 (idempotence of `blosc_set_local`).  If the setup succeeds on a property
list `dcpl` and leaves `dcpl'`, then the setup run again with the same type on
`dcpl'` (same chunk shape, the block the first run wrote) succeeds and leaves
`dcpl'` itself: the same flags, the same number of slots, the same value in
every slot. -/
theorem blosc_set_local_idempotent (ok : Bool) (dcpl dcpl' : Dcpl) (type : H5Type)
    (diags : List Diag)
    (h : blosc_set_local ok dcpl type = .ret (1, dcpl', diags)) :
    blosc_set_local ok dcpl' type = .ret (1, dcpl', diags) := by
  obtain ⟨f, dims, hf, hc, hrank, hn, hsize, hclass, hok⟩ :=
    blosc_set_local_success ok dcpl dcpl' type diags h
  subst hok
  rw [blosc_set_local_ok dcpl type f dims hf hc hrank hn hsize hclass] at h
  injection h with h
  injection h with _ h
  injection h with h hdiags
  subst h
  subst hdiags
  have key := blosc_set_local_ok
    ⟨some ⟨f.flags, [FILTER_BLOSC_VERSION, BLOSC_VERSION_FORMAT,
      (if base_type_size type (H5Tget_class type) (toUnsigned (H5Tget_size type)) >
          BLOSC_MAX_TYPESIZE then 1
       else base_type_size type (H5Tget_class type) (toUnsigned (H5Tget_size type))),
      (H5Tget_size type * dims.prod) % 2 ^ 32] ++ f.cd_values.drop 4⟩, dcpl.chunk⟩
    type _ dims rfl hc hrank (by simp; omega) hsize hclass
  rw [key]
  simp

/-- Witness of C10: a block of 7 slots as `example.c` sets it, 4-byte floats, chunks
of 1 x 100 x 100; the second run changes nothing. -/
theorem blosc_set_local_idempotent_witness :
    blosc_set_local true ⟨some ⟨1, [0, 0, 0, 0, 4, 1, 0]⟩, some [1, 100, 100]⟩
        (.base .H5T_FLOAT 4) =
      .ret (1, ⟨some ⟨1, [2, 2, 4, 40000, 4, 1, 0]⟩, some [1, 100, 100]⟩, []) ∧
    blosc_set_local true ⟨some ⟨1, [2, 2, 4, 40000, 4, 1, 0]⟩, some [1, 100, 100]⟩
        (.base .H5T_FLOAT 4) =
      .ret (1, ⟨some ⟨1, [2, 2, 4, 40000, 4, 1, 0]⟩, some [1, 100, 100]⟩, []) :=
  ⟨by decide,
   blosc_set_local_idempotent true ⟨some ⟨1, [0, 0, 0, 0, 4, 1, 0]⟩, some [1, 100, 100]⟩
     ⟨some ⟨1, [2, 2, 4, 40000, 4, 1, 0]⟩, some [1, 100, 100]⟩ (.base .H5T_FLOAT 4) []
     (by decide)⟩

/-! ## The remaining claims about `blosc_filter` and `register_blosc` -/

/-- The optional slots decode whenever the reorder mode is not an unsupported
bit-shuffle and the compressor selector is known, each slot by itself. -/
theorem decode_params_eq (B : Blosc) (cd_values : List Nat)
    (hshuffle : ¬ (cd_values.length ≥ 6 ∧ bitshuffle_unsupported B = true ∧
      toInt (cd_values.getD 5 0) = BLOSC_BITSHUFFLE))
    (hcomp : cd_values.length ≥ 7 →
      (B.blosc_compcode_to_compname (toInt (cd_values.getD 6 0))).1 ≠ -1) :
    decode_params B cd_values =
      .ok ⟨if cd_values.length ≥ 5 then toInt (cd_values.getD 4 0) else 5,
           if cd_values.length ≥ 6 then toInt (cd_values.getD 5 0) else 1,
           if cd_values.length ≥ 7 then
             (B.blosc_compcode_to_compname (toInt (cd_values.getD 6 0))).2
           else "blosclz"⟩ := by
  unfold decode_params
  dsimp only
  have hbit : ¬ (cd_values.length ≥ 6 ∧ bitshuffle_unsupported B = true ∧
      (if cd_values.length ≥ 6 then toInt (cd_values.getD 5 0) else 1) =
        BLOSC_BITSHUFFLE) := by
    rintro ⟨h6, hb, he⟩
    rw [if_pos h6] at he
    exact hshuffle ⟨h6, hb, he⟩
  rw [if_neg hbit]
  by_cases h7 : cd_values.length ≥ 7
  · rw [if_pos h7, if_neg (hcomp h7), if_pos h7]
  · rw [if_neg h7, if_neg h7]

/-- What the compressing branch returns comes from `blosc_compress` called with
the decoded parameters, and the compressor selected is `p.compname`. -/
theorem compress_path_ret (B : Blosc) (junk : List Byte) (p : Params)
    (typesize nbytes : Nat) (s : State) (src : List Byte)
    (hsrc : s.heap.lookup s.buf = some src) (r : Nat) (s' : State)
    (h : compress_path B true junk p typesize nbytes s = .ret (r, s')) :
    s'.compressor = p.compname ∧
    (0 < r →
      (r : Int) = (B.blosc_compress p.compname p.clevel p.doshuffle typesize nbytes src
        (freshBlock nbytes junk) nbytes).1 ∧
      s'.heap.lookup s'.buf = some (B.blosc_compress p.compname p.clevel p.doshuffle
        typesize nbytes src (freshBlock nbytes junk) nbytes).2) := by
  rw [compress_path_eq _ _ _ _ _ _ src hsrc] at h
  have hne : s.heap.fresh ≠ s.buf :=
    fun e => s.heap.ne_fresh_of_lookup s.buf src hsrc e.symm
  split at h
  · cases h; exact ⟨rfl, fun h0 => absurd h0 (by decide)⟩
  · split at h
    · cases h; exact ⟨rfl, fun h0 => absurd h0 (by decide)⟩
    · split at h
      · cases h
      · rename_i h0 h1 h2
        injection h with h
        injection h with h3 h4
        subst h4
        refine ⟨rfl, fun _ => ⟨by omega, ?_⟩⟩
        simp only
        rw [Heap.lookup_free_ne _ _ _ hne, Heap.lookup_alloc_self]

theorem toInt_of_lt (v : Nat) (h : v < 2 ^ 31) : toInt v = (v : Int) := by
  unfold toInt
  have h1 : v % 2 ^ 32 = v := Nat.mod_eq_of_lt (by omega)
  rw [h1, if_pos h]

/-- Counterexample to C11 as stated: a 5-slot block whose slot 4 holds `2^31`.  The
compression level passed to the backend is not slot 4 but `-2^31`, the slot
read into an `int` (line 187): the call is the compressing branch run with
that level, and the backend `echoBackend`, which refuses a negative level,
answers with an error. -/
theorem blosc_filter_level_is_signed :
    decode_params echoBackend [2, 2, 1, 8, 2147483648] =
      .ok ⟨-2147483648, 1, "blosclz"⟩ ∧
    blosc_filter echoBackend true [] 0 [2, 2, 1, 8, 2147483648] 8 chunk8 =
      compress_path echoBackend true [] ⟨-2147483648, 1, "blosclz"⟩ 1 8 chunk8 ∧
    blosc_filter echoBackend true [] 0 [2, 2, 1, 8, 2147483648] 8 chunk8 =
      .ret (0, { chunk8 with errs := [.compression_error], compressor := "blosclz" }) ∧
    (-2147483648 : Int) ≠ ((2147483648 : Nat) : Int) := by
  refine ⟨by rfl, by decide, by decide, by decide⟩

/-- C11, amended (the optional slots in `blosc_filter`).  Take a forward call that
passes the entry `assert`s (so the block has `n >= 4` slots) with a live
`*buf` and a successful allocation, and that reaches the backend: the reorder
mode is not a bit-shuffle the library predates, and the compressor selector,
if the block has one, is known to the backend.  Then the call is the
compressing branch run with: compression level = slot 4 read into an `int` if
`n >= 5`, else 5; reorder mode = slot 5 read into an `int` if `n >= 6`, else
1 (byte-shuffle); compressor = the name the backend maps slot 6 to if
`n >= 7`, else "blosclz"; element size = slot 2.  These are the arguments of
`blosc_compress`: a call that returns `r > 0` returns the status of
`blosc_compress` at these arguments and hands back its output, and the
compressor is the one selected in the backend.  A slot below `2^31` is read
into an `int` unchanged.  In particular a 4-slot block compresses with level
5, byte-shuffle and "blosclz". -/
theorem blosc_filter_optional_slots (B : Blosc) (junk : List Byte) (flags : Nat)
    (cd_values : List Nat) (nbytes : Nat) (s : State) (src : List Byte)
    (ha : entry_asserts cd_values nbytes s)
    (hf : flags &&& H5Z_FLAG_REVERSE = 0)
    (hsrc : s.heap.lookup s.buf = some src)
    (hshuffle : ¬ (cd_values.length ≥ 6 ∧ bitshuffle_unsupported B = true ∧
      toInt (cd_values.getD 5 0) = BLOSC_BITSHUFFLE))
    (hcomp : cd_values.length ≥ 7 →
      (B.blosc_compcode_to_compname (toInt (cd_values.getD 6 0))).1 ≠ -1) :
    blosc_filter B true junk flags cd_values nbytes s =
      compress_path B true junk
        ⟨if cd_values.length ≥ 5 then toInt (cd_values.getD 4 0) else 5,
         if cd_values.length ≥ 6 then toInt (cd_values.getD 5 0) else 1,
         if cd_values.length ≥ 7 then
           (B.blosc_compcode_to_compname (toInt (cd_values.getD 6 0))).2
         else "blosclz"⟩
        (cd_values.getD 2 0) nbytes s ∧
    (∀ r s', blosc_filter B true junk flags cd_values nbytes s = .ret (r, s') →
      s'.compressor = (if cd_values.length ≥ 7 then
          (B.blosc_compcode_to_compname (toInt (cd_values.getD 6 0))).2
        else "blosclz") ∧
      (0 < r →
        (r : Int) = (B.blosc_compress
          (if cd_values.length ≥ 7 then
            (B.blosc_compcode_to_compname (toInt (cd_values.getD 6 0))).2
           else "blosclz")
          (if cd_values.length ≥ 5 then toInt (cd_values.getD 4 0) else 5)
          (if cd_values.length ≥ 6 then toInt (cd_values.getD 5 0) else 1)
          (cd_values.getD 2 0) nbytes src (freshBlock nbytes junk) nbytes).1 ∧
        s'.heap.lookup s'.buf = some (B.blosc_compress
          (if cd_values.length ≥ 7 then
            (B.blosc_compcode_to_compname (toInt (cd_values.getD 6 0))).2
           else "blosclz")
          (if cd_values.length ≥ 5 then toInt (cd_values.getD 4 0) else 5)
          (if cd_values.length ≥ 6 then toInt (cd_values.getD 5 0) else 1)
          (cd_values.getD 2 0) nbytes src (freshBlock nbytes junk) nbytes).2)) ∧
    (∀ v, v < 2 ^ 31 → toInt v = (v : Int)) ∧
    (cd_values.length = 4 →
      blosc_filter B true junk flags cd_values nbytes s =
        compress_path B true junk ⟨5, 1, "blosclz"⟩ (cd_values.getD 2 0) nbytes s) := by
  have hd := decode_params_eq B cd_values hshuffle hcomp
  have hfw := blosc_filter_forward B true junk flags cd_values nbytes s _ ha hd hf
  refine ⟨hfw, ?_, toInt_of_lt, ?_⟩
  · intro r s' h
    rw [hfw] at h
    exact compress_path_ret B junk _ (cd_values.getD 2 0) nbytes s src hsrc r s' h
  · intro h4
    rw [hfw]
    simp [h4]

/-- Witness of C11 amended: the 7-slot block `[2, 2, 4, 8, 9, 0, 1]` (element size 4,
level 9, no shuffle, compressor code 1) with the backend `echoBackend`.  The
output buffer starts with the arguments the backend was called with, level
9, reorder mode 0, element size 4 and a compressor name of 3 characters, and
"lz4" is the compressor selected. -/
theorem blosc_filter_optional_slots_witness :
    blosc_filter echoBackend true [] 0 [2, 2, 4, 8, 9, 0, 1] 8 chunk8 =
      .ret (4, ⟨⟨[(2, [9, 0, 4, 3, 0, 0, 0, 0])]⟩, 2, 8, [], "lz4"⟩) ∧
    blosc_filter echoBackend true [] 0 [2, 2, 4, 8, 9, 0, 1] 8 chunk8 =
      compress_path echoBackend true [] ⟨9, 0, "lz4"⟩ 4 8 chunk8 :=
  ⟨by decide,
   (blosc_filter_optional_slots echoBackend [] 0 [2, 2, 4, 8, 9, 0, 1] 8 chunk8
      [7, 7, 7, 7, 7, 7, 7, 7] (by decide) (by decide) (by decide) (by decide)
      (by decide)).1⟩

/-- C12 (`register_blosc`), the code at the failing input: when the host call
`H5Zregister` returns -1 the function pushes "Can't register Blosc filter"
and returns 1, not the negative value; it returns 1 whatever the host
returns.  The other half of the claim holds: with both output arguments
non-`NULL` they receive the version string and the build date. -/
theorem register_blosc_returns_one :
    register_blosc (-1) "1.21.7.dev" "2024-06-24" true true [] =
      ⟨1, some "1.21.7.dev", some "2024-06-24", [.cant_register]⟩ ∧
    (∀ (retval : Int) (vs vd : String) (version date : Bool) (errs : List Diag),
      (register_blosc retval vs vd version date errs).status = 1) ∧
    (∀ (retval : Int) (vs vd : String) (errs : List Diag),
      (register_blosc retval vs vd true true errs).version = some vs ∧
      (register_blosc retval vs vd true true errs).date = some vd) := by
  refine ⟨by decide, ?_, ?_⟩
  · intro retval vs vd version date errs
    cases version <;> cases date <;> simp [register_blosc]
  · intro retval vs vd errs
    simp [register_blosc]

/-- Counterexample to C13 as stated: a reverse call with `nbytes = 4` on a stream
whose header records 3 compressed bytes.  The call does not return 0 and
pushes no diagnostic: the `assert` of line 261 fails and the call is aborted,
with the memory and the error stack as they were on entry. -/
theorem blosc_filter_header_mismatch_aborts :
    (runBackend.blosc_cbuffer_sizes [8, 3, 7, 0, 0, 0, 0, 0]).2.1 = 3 ∧
    blosc_filter runBackend true [] 256 [2, 2, 1, 8] 4
      ⟨⟨[(2, [8, 3, 7, 0, 0, 0, 0, 0])]⟩, 2, 8, [], "blosclz"⟩ =
        .abort ⟨⟨[(2, [8, 3, 7, 0, 0, 0, 0, 0])]⟩, 2, 8, [], "blosclz"⟩ := by
  decide

/-- C13, amended (header consistency check on decompression), for a build with
the assertions compiled in.  In the reverse direction, for a call that passes
the entry `assert`s with slots that decode and a live `*buf`: whenever the
compressed size `cbytes` that `blosc_cbuffer_sizes` reads from the header
differs from `nbytes`, the `assert` of line 261 fails and the call is
aborted, so it does not return (no result 0).  At that point the state is the
state on entry: no diagnostic has been pushed, nothing has been allocated or
written, `*buf` and `*buf_size` are untouched.  The outcome is the same
whatever the allocator would answer (`ok`, `junk`) and whatever decompressor
`g` the backend has: neither is consulted. -/
theorem blosc_filter_header_check (B : Blosc) (ok : Bool) (junk : List Byte)
    (flags : Nat) (cd_values : List Nat) (nbytes : Nat) (s : State) (p : Params)
    (src : List Byte)
    (ha : entry_asserts cd_values nbytes s)
    (hd : decode_params B cd_values = .ok p)
    (hf : flags &&& H5Z_FLAG_REVERSE ≠ 0)
    (hsrc : s.heap.lookup s.buf = some src)
    (hne : (B.blosc_cbuffer_sizes src).2.1 ≠ nbytes) :
    blosc_filter B ok junk flags cd_values nbytes s = .abort s ∧
    ∀ (ok2 : Bool) (junk2 : List Byte)
      (g : List Byte → List Byte → Nat → Int × List Byte),
      blosc_filter { B with blosc_decompress := g } ok2 junk2 flags cd_values nbytes s =
        .abort s := by
  have key : ∀ (B2 : Blosc) (ok2 : Bool) (junk2 : List Byte),
      decode_params B2 cd_values = .ok p →
      (B2.blosc_cbuffer_sizes src).2.1 ≠ nbytes →
      blosc_filter B2 ok2 junk2 flags cd_values nbytes s = .abort s := by
    intro B2 ok2 junk2 hd2 hne2
    rw [blosc_filter_reverse B2 ok2 junk2 flags cd_values nbytes s p ha hd2 hf]
    cases ok2 with
    | false => rw [decompress_path_nomem _ _ _ _ src hsrc, if_pos hne2]
    | true => rw [decompress_path_eq _ _ _ _ src hsrc, if_pos hne2]
  refine ⟨key B ok junk hd hne, ?_⟩
  intro ok2 junk2 g
  exact key _ ok2 junk2 hd hne

/-- Witness of C13 amended: `nbytes = 5` against a header that records 3. -/
theorem blosc_filter_header_check_witness :
    blosc_filter runBackend true [] 256 [2, 2, 1, 8] 5
      ⟨⟨[(2, [8, 3, 7, 0, 0, 0, 0, 0])]⟩, 2, 8, [], "blosclz"⟩ =
        .abort ⟨⟨[(2, [8, 3, 7, 0, 0, 0, 0, 0])]⟩, 2, 8, [], "blosclz"⟩ :=
  (blosc_filter_header_check runBackend true [] 256 [2, 2, 1, 8] 5
    ⟨⟨[(2, [8, 3, 7, 0, 0, 0, 0, 0])]⟩, 2, 8, [], "blosclz"⟩ ⟨5, 1, "blosclz"⟩
    [8, 3, 7, 0, 0, 0, 0, 0] (by decide) (by rfl) (by decide) (by decide) (by decide)).1

/-! ## The remaining claims about `blosc_set_local` -/

/-- The slots of the block `blosc_set_local` writes, from slot 4 on. -/
theorem getD_block_tail (a b c d : Nat) (vs : List Nat) (i : Nat) (hi : 4 ≤ i) :
    ([a, b, c, d] ++ vs.drop 4).getD i 0 = vs.getD i 0 := by
  obtain ⟨j, rfl⟩ : ∃ j, i = j + 4 := ⟨i - 4, by omega⟩
  simp only [List.cons_append, List.nil_append, List.getD_cons_succ]
  simp [List.getD_eq_getElem?_getD, List.getElem?_drop, Nat.add_comm]

theorem length_block (a b c d : Nat) (vs : List Nat) :
    ([a, b, c, d] ++ vs.drop 4).length = max vs.length 4 := by
  simp only [List.length_append, List.length_cons, List.length_nil, List.length_drop]
  omega

/-- Counterexample to C14 as stated: a 5-element array of 3-element arrays of
4-byte floats.  The innermost non-array type is the float, 4 bytes wide, but
the setup stores 12 in slot 2, the width of the intermediate array type:
lines 122-127 take one `H5Tget_super` step. -/
theorem blosc_set_local_nested_array_not_resolved :
    blosc_set_local true ⟨some ⟨1, []⟩, some [10]⟩
        (H5Tarray_create (H5Tarray_create (.base .H5T_FLOAT 4) [3]) [5]) =
      .ret (1, ⟨some ⟨1, [2, 2, 12, 600]⟩, some [10]⟩, []) ∧
    innermost_base_type (H5Tarray_create (H5Tarray_create (.base .H5T_FLOAT 4) [3]) [5]) =
      .base .H5T_FLOAT 4 ∧
    Dcpl.slot ⟨some ⟨1, [2, 2, 12, 600]⟩, some [10]⟩ 2 ≠
      some (H5Tget_size (innermost_base_type
        (H5Tarray_create (H5Tarray_create (.base .H5T_FLOAT 4) [3]) [5]))) := by
  decide

/-- C14, amended (base-type resolution in `blosc_set_local` on nested arrays).  For
every element type that is an array, of extents `N`, of an array, of extents
`M`, of a type `A` (itself an array or not, so the nesting is of any depth),
let `w` be the byte width of the immediate base type, the intermediate array
of extents `M`.  A successful setup stores in slot 2 the width `w` as an
`unsigned int` holds it, that is `w` modulo `2^32`, replaced by 1 when that
exceeds `BLOSC_MAX_TYPESIZE`.  So it stores `w` itself when `w` is at most
`BLOSC_MAX_TYPESIZE`, and 1 when `w` is larger and below `2^32`.  The value
stored is not the width of `A` when `w` is at most `BLOSC_MAX_TYPESIZE` and
the intermediate array has more than one element: the base type is resolved
one level, not down to the innermost type. -/
theorem blosc_set_local_nested_array (ok : Bool) (dcpl dcpl' : Dcpl) (A : H5Type)
    (M N : List Nat) (diags : List Diag)
    (h : blosc_set_local ok dcpl (H5Tarray_create (H5Tarray_create A M) N) =
      .ret (1, dcpl', diags)) :
    dcpl'.slot 2 = some
      (if H5Tget_size (H5Tarray_create A M) % 2 ^ 32 > BLOSC_MAX_TYPESIZE then 1
       else H5Tget_size (H5Tarray_create A M) % 2 ^ 32) ∧
    (H5Tget_size (H5Tarray_create A M) ≤ BLOSC_MAX_TYPESIZE →
      dcpl'.slot 2 = some (H5Tget_size (H5Tarray_create A M))) ∧
    (BLOSC_MAX_TYPESIZE < H5Tget_size (H5Tarray_create A M) →
      H5Tget_size (H5Tarray_create A M) < 2 ^ 32 → dcpl'.slot 2 = some 1) ∧
    (H5Tget_size (H5Tarray_create A M) ≤ BLOSC_MAX_TYPESIZE → 1 < M.prod →
      dcpl'.slot 2 ≠ some (H5Tget_size A)) := by
  obtain ⟨f, dims, hf, hc, hrank, hn, hsize, hclass, hok⟩ :=
    blosc_set_local_success ok dcpl dcpl' _ diags h
  subst hok
  rw [blosc_set_local_ok dcpl _ f dims hf hc hrank hn hsize hclass] at h
  injection h with h
  injection h with _ h
  injection h with h _
  subst h
  have hbase : base_type_size (H5Tarray_create (H5Tarray_create A M) N)
      (H5Tget_class (H5Tarray_create (H5Tarray_create A M) N))
      (toUnsigned (H5Tget_size (H5Tarray_create (H5Tarray_create A M) N))) =
        toUnsigned (H5Tget_size (H5Tarray_create A M)) := by
    simp [base_type_size, H5Tarray_create, H5Tget_class, H5Tget_super]
  simp only [Dcpl.slot, Option.map_some', List.cons_append, List.getD_cons_succ,
    List.getD_cons_zero, hbase]
  simp only [toUnsigned, BLOSC_MAX_TYPESIZE]
  have hle : ∀ (hs : H5Tget_size (H5Tarray_create A M) ≤ 255),
      (if H5Tget_size (H5Tarray_create A M) % 2 ^ 32 > 255 then 1
        else H5Tget_size (H5Tarray_create A M) % 2 ^ 32) =
          H5Tget_size (H5Tarray_create A M) := by
    intro hs
    rw [Nat.mod_eq_of_lt (by omega), if_neg (by omega)]
  refine ⟨trivial, fun hs => by rw [hle hs], ?_, ?_⟩
  · intro h1 h2
    rw [Nat.mod_eq_of_lt h2, if_pos (by omega)]
  · intro hs hM e
    rw [hle hs] at e
    injection e with e
    have hsz : H5Tget_size (H5Tarray_create A M) = H5Tget_size A * M.prod := rfl
    have h0 : H5Tget_size A ≠ 0 := by
      intro h0
      apply hsize
      have hs2 : H5Tget_size (H5Tarray_create (H5Tarray_create A M) N) =
          H5Tget_size A * M.prod * N.prod := rfl
      rw [hs2, h0]
      simp [toUnsigned]
    have hlt : H5Tget_size A * 1 < H5Tget_size A * M.prod :=
      Nat.mul_lt_mul_of_pos_left hM (Nat.pos_of_ne_zero h0)
    omega

/-- Witness of C14 amended: the 5-element array of 3-element arrays of floats gives
slot 2 = 12, the width of the 3-element array. -/
theorem blosc_set_local_nested_array_witness :
    blosc_set_local true ⟨some ⟨1, []⟩, some [10]⟩
        (H5Tarray_create (H5Tarray_create (.base .H5T_FLOAT 4) [3]) [5]) =
      .ret (1, ⟨some ⟨1, [2, 2, 12, 600]⟩, some [10]⟩, []) ∧
    Dcpl.slot ⟨some ⟨1, [2, 2, 12, 600]⟩, some [10]⟩ 2 =
      some (H5Tget_size (H5Tarray_create (.base .H5T_FLOAT 4) [3])) :=
  ⟨by decide,
   (blosc_set_local_nested_array true ⟨some ⟨1, []⟩, some [10]⟩
      ⟨some ⟨1, [2, 2, 12, 600]⟩, some [10]⟩ (.base .H5T_FLOAT 4) [3] [5] []
      (by decide)).2.1 (by decide)⟩

/-- C15 (frame of `blosc_set_local`).  Let the filter entry hold the flags and a
block of `n` slots, and let the setup succeed.  Then `n <= 8`, and the
entry left behind has a block of `max n 4` slots in which slot 0 is
`FILTER_BLOSC_VERSION` and slot 1 is `BLOSC_VERSION_FORMAT` whatever they
held, slot 2 is the derived element size (the clamped base type size), slot 3
is the chunk byte size (type width times the chunk extents, in 32 bits), every
slot of index 4 or more is what it was, and the filter flags are what they
were; the chunk shape is untouched. -/
theorem blosc_set_local_frame (ok : Bool) (dcpl dcpl' : Dcpl) (type : H5Type)
    (f : Filter) (dims : List Nat) (diags : List Diag)
    (hf : dcpl.filter = some f) (hc : dcpl.chunk = some dims)
    (h : blosc_set_local ok dcpl type = .ret (1, dcpl', diags)) :
    f.cd_values.length ≤ 8 ∧
    ∃ f', dcpl'.filter = some f' ∧
      f'.cd_values.length = max f.cd_values.length 4 ∧
      f'.cd_values.getD 0 0 = FILTER_BLOSC_VERSION ∧
      f'.cd_values.getD 1 0 = BLOSC_VERSION_FORMAT ∧
      f'.cd_values.getD 2 0 =
        (if base_type_size type (H5Tget_class type) (toUnsigned (H5Tget_size type)) >
            BLOSC_MAX_TYPESIZE then 1
         else base_type_size type (H5Tget_class type) (toUnsigned (H5Tget_size type))) ∧
      f'.cd_values.getD 3 0 = (H5Tget_size type * dims.prod) % 2 ^ 32 ∧
      (∀ i, 4 ≤ i → f'.cd_values.getD i 0 = f.cd_values.getD i 0) ∧
      f'.flags = f.flags ∧
      dcpl'.chunk = dcpl.chunk := by
  obtain ⟨f0, dims0, hf0, hc0, hrank, hn, hsize, hclass, hok⟩ :=
    blosc_set_local_success ok dcpl dcpl' type diags h
  subst hok
  rw [hf] at hf0
  injection hf0 with hf0
  subst hf0
  rw [hc] at hc0
  injection hc0 with hc0
  subst hc0
  rw [blosc_set_local_ok dcpl type f dims hf hc hrank hn hsize hclass] at h
  injection h with h
  injection h with _ h
  injection h with h _
  subst h
  exact ⟨hn, _, rfl, length_block _ _ _ _ _, rfl, rfl, rfl, rfl,
    fun i hi => getD_block_tail _ _ _ _ _ i hi, rfl, rfl⟩

/-- Witness of C15: a block of 8 slots; slots 0-3 are rewritten, slots 4-7 and the
flags stay. -/
theorem blosc_set_local_frame_witness :
    blosc_set_local true ⟨some ⟨1, [9, 9, 9, 9, 4, 1, 0, 77]⟩, some [1, 100, 100]⟩
        (.base .H5T_FLOAT 4) =
      .ret (1, ⟨some ⟨1, [2, 2, 4, 40000, 4, 1, 0, 77]⟩, some [1, 100, 100]⟩, []) ∧
    ([9, 9, 9, 9, 4, 1, 0, 77] : List Nat).length ≤ 8 :=
  ⟨by decide,
   (blosc_set_local_frame true ⟨some ⟨1, [9, 9, 9, 9, 4, 1, 0, 77]⟩, some [1, 100, 100]⟩
      ⟨some ⟨1, [2, 2, 4, 40000, 4, 1, 0, 77]⟩, some [1, 100, 100]⟩ (.base .H5T_FLOAT 4)
      ⟨1, [9, 9, 9, 9, 4, 1, 0, 77]⟩ [1, 100, 100] [] rfl rfl (by decide)).1⟩

end BloscFilter
